import Mathlib

/-!
# Verification of the nl2sql planning-and-validation pipeline

A shallow embedding, in Lean 4, of the core components of the nl2sql
repository:

* the schema graph and its join-path solver (`app/loaders/graph_builder.py`),
* the hybrid retrieval index (`app/loaders/schema_index.py`),
* the plan validator/repairer (`app/validators/plan_validator.py`),
* the SQL security validator (`app/validators/query_validator.py`), and
* the orchestration retry loop (`app/intelligent_sql_generator.py`).

Python dicts are modelled as association lists that preserve insertion
order (updates keep the original position of a key, new keys are appended),
Python sets are modelled as order-preserving deduplicated lists, exceptions
as `Except`/sum types, and the regular-expression searches that the
validators perform are modelled as direct character-list scanners that
implement the semantics of the concrete patterns appearing in the source.
External collaborators (the LLM, the DB, sklearn's TF-IDF, and the
best-effort sqlglot AST tier, which the source skips silently when the
library is unavailable) are modelled as explicit oracle parameters or as
absent, following the spec's interface descriptions.
-/

namespace NL2SQL

/-! ## Character and string utilities

The validators work on Python `str` values via `re`; we model strings as
`List Char` and implement the specific pattern searches used by the code.
-/

/-- Python regex `\w` (ASCII inputs): letters, digits and underscore. -/
def isWordChar (c : Char) : Bool := c.isAlphanum || c == '_'

/-- Python regex `\s` for the ASCII whitespace appearing in SQL text. -/
def isWs (c : Char) : Bool := c == ' ' || c == '\t' || c == '\n' || c == '\r'

/-- Lower-case a character list (Python `str.lower`, ASCII inputs). -/
def lcLower (s : List Char) : List Char := s.map Char.toLower

/-- Upper-case a character list (Python `str.upper`, ASCII inputs). -/
def lcUpper (s : List Char) : List Char := s.map Char.toUpper

/-- Python `str.lower` on strings (character-list based so that it
evaluates by kernel reduction). -/
def pyLower (s : String) : String := String.mk (lcLower s.data)

/-- Does `pat` occur starting exactly at index `i` of `s`? -/
def prefixAt (pat s : List Char) (i : Nat) : Bool := pat.isPrefixOf (s.drop i)

/-- Regex `\b` holds just before index `i` (start of string or preceding
character is not a word character). -/
def boundaryBefore (s : List Char) (i : Nat) : Bool :=
  if i = 0 then true else
    match s.get? (i - 1) with
    | some c => !isWordChar c
    | none => true

/-- Regex `\b` holds just after index `j` (end of string or following
character is not a word character). -/
def boundaryAfter (s : List Char) (j : Nat) : Bool :=
  match s.get? j with
  | some c => !isWordChar c
  | none => true

/-- Word-boundary match of `kw` at index `i` of `s`: regex `\bkw\b`. -/
def wordAt (s kw : List Char) (i : Nat) : Bool :=
  boundaryBefore s i && prefixAt kw s i && boundaryAfter s (i + kw.length)

/-- Source: `re.search(r"\bkw\b", s)` succeeds. -/
def containsWord (s kw : List Char) : Bool :=
  (List.range (s.length + 1)).any (fun i => wordAt s kw i)

/-- Index of the first word-boundary match of `kw` in `s`, if any. -/
def firstWordIdx (s kw : List Char) : Option Nat :=
  (List.range (s.length + 1)).find? (fun i => wordAt s kw i)

/-- Python `needle in haystack` substring test. -/
def containsSubstr (hay needle : List Char) : Bool :=
  (List.range (hay.length + 1)).any (fun i => prefixAt needle hay i)

/-- Drop a leading run of whitespace: regex `\s*` consumed greedily. -/
def eatWs (s : List Char) : List Char := s.dropWhile isWs

/-- If `pat` is a prefix of `s`, return the rest of `s`. -/
def eatPrefix (pat s : List Char) : Option (List Char) :=
  if pat.isPrefixOf s then some (s.drop pat.length) else none

/-- Collapse whitespace runs to single spaces (`re.sub(r'\s+', ' ', s)`);
the flag records whether the previous character was whitespace. -/
def collapseWsAux : Bool → List Char → List Char
  | _, [] => []
  | prevWs, c :: rest =>
    if isWs c then
      if prevWs then collapseWsAux true rest
      else ' ' :: collapseWsAux true rest
    else c :: collapseWsAux false rest

/-- Source: `re.sub(r'\s+', ' ', s).strip()` as used by `_extract_tables`. -/
def normWs (s : List Char) : List Char :=
  ((collapseWsAux true s).reverse.dropWhile isWs).reverse

/-- Python `str.rstrip(';')`: drop trailing semicolons. -/
def rstripSemi (s : List Char) : List Char :=
  (s.reverse.dropWhile (fun c => c == ';')).reverse

/-- String splice `s[:i] + ins + s[i:]` used when inserting SQL clauses. -/
def insertAt (s ins : List Char) (i : Nat) : List Char :=
  s.take i ++ ins ++ s.drop i

/-- Order-preserving deduplication, Python `list(dict.fromkeys(xs))`. -/
def dedup : List String → List String
  | [] => []
  | x :: xs => x :: (dedup xs).filter (fun y => y ≠ x)

/-! ## Association lists for Python dicts

`alSet` models Python dict assignment: an existing key keeps its position,
a new key is appended at the end (insertion order). -/

/-- Python `d.get(k)`. -/
def alGet {α : Type} (m : List (String × α)) (k : String) : Option α :=
  (m.find? (fun p => p.1 = k)).map Prod.snd

/-- Python `d.get(k, dflt)`. -/
def alGetD {α : Type} (m : List (String × α)) (k : String) (dflt : α) : α :=
  (alGet m k).getD dflt

/-- Python `k in d`. -/
def alContains {α : Type} (m : List (String × α)) (k : String) : Bool :=
  m.any (fun p => p.1 = k)

/-- Python `d[k] = v` (update in place or append). -/
def alSet {α : Type} (m : List (String × α)) (k : String) (v : α) : List (String × α) :=
  if alContains m k then m.map (fun p => if p.1 = k then (k, v) else p)
  else m ++ [(k, v)]

/-! ## Schema model (`app/loaders/graph_builder.py`)

`SchemaGraph` holds the loaded `tables` dict and `relationships` list; the
NetworkX `DiGraph` built by `_build_nx_graph` has the table names as nodes
and one directed edge per relationship (`add_edge` also inserts the edge's
endpoints as nodes). -/

/-- One entry of the schema's `tables` dict. -/
structure TableInfo where
  columns : List String := []
  scoped_ : Bool := false
  scoping_column : Option String := none
  description : String := ""
  examples : List String := []
  deriving Repr, DecidableEq

/-- One entry of the schema's `relationships` list: dict keys `from`, `to`,
`on` and the optional `to_column` (`from`, `to` and `on` are Lean tokens,
hence the trailing underscores). -/
structure Rel where
  from_ : String
  to_ : String
  on_ : String
  to_column : Option String := none
  deriving Repr, DecidableEq

/-- The loaded schema graph: the `tables` dict (insertion-ordered), the
`relationships` list and the optional `keyword_mappings` dict of
`graph_data`. -/
structure SchemaGraph where
  tables : List (String × TableInfo)
  relationships : List Rel
  keyword_mappings : List (String × List String) := []
  deriving Repr

/-- Nodes of the NetworkX digraph: every table name plus every relationship
endpoint (NetworkX `add_edge` inserts missing endpoints). -/
def SchemaGraph.nodes (g : SchemaGraph) : List String :=
  NL2SQL.dedup (g.tables.map Prod.fst ++ g.relationships.flatMap (fun r => [r.from_, r.to_]))

/-- Successors of `a` in the digraph, in relationship insertion order. -/
def SchemaGraph.succs (g : SchemaGraph) (a : String) : List String :=
  NL2SQL.dedup ((g.relationships.filter (fun r => r.from_ = a)).map Rel.to_)

/-- One BFS expansion step: extend every frontier path by the unvisited
successors of its endpoint. Paths are stored reversed (head = endpoint). -/
def bfsExpand (g : SchemaGraph) (visited : List String) :
    List (List Char × List String) → List String × List (List Char × List String)
  | [] => (visited, [])
  | (_, []) :: rest => bfsExpand g visited rest
  | (tag, p@(endp :: _)) :: rest =>
    let nexts := (g.succs endp).filter (fun n => decide (n ∉ visited))
    let visited := visited ++ nexts
    let (visited, out) := bfsExpand g visited rest
    (visited, nexts.map (fun n => (tag, n :: p)) ++ out)

/-- Breadth-first search for `target` from the frontier, layer by layer;
`fuel` bounds the number of layers (the node count suffices). Models
`networkx.shortest_path` determinized by adjacency insertion order. -/
def bfsSearch (g : SchemaGraph) (target : String) :
    Nat → List String → List (List Char × List String) → Option (List String)
  | 0, _, _ => none
  | _, _, [] => none
  | Nat.succ fuel, visited, frontier =>
    match frontier.find? (fun p => match p.2 with
      | endp :: _ => endp = target
      | [] => false) with
    | some (_, path) => some path.reverse
    | none =>
      let (visited, frontier) := bfsExpand g visited frontier
      bfsSearch g target fuel visited frontier

/-- Source: `networkx.shortest_path(G, a, b)` as an `Except`: `.error ()` models the
`NodeNotFound` exception raised when either endpoint is not a node, `.ok
none` models `NetworkXNoPath`, and `.ok (some p)` is a shortest path. -/
def shortestPathE (g : SchemaGraph) (a b : String) : Except Unit (Option (List String)) :=
  if a ∉ g.nodes ∨ b ∉ g.nodes then .error ()
  else .ok (bfsSearch g b (g.nodes.length + 1) [a] [([], [a])])

/-- Source: `SchemaGraph.find_path_between_tables`: catches `NetworkXNoPath` and
returns `None`; `NodeNotFound` propagates (it is not a `NetworkXNoPath`). -/
def findPathBetweenTables (g : SchemaGraph) (a b : String) :
    Except Unit (Option (List String)) :=
  shortestPathE g a b

/-- A join step emitted by `get_join_path` (dict with keys `from_table`,
`to_table`, `join_column`, `to_column`). -/
structure JoinStep where
  from_table : String
  to_table : String
  join_column : String
  to_column : String
  deriving Repr, DecidableEq

/-- The joins created for one path: for each consecutive pair the first
relationship matching `rel['from'] == a and rel['to'] == b` yields a step
(`rel.get('to_column', 'id')` defaults the right column); pairs without a
declared relationship are skipped. -/
def pathJoins (g : SchemaGraph) : List String → List JoinStep
  | a :: b :: rest =>
    (match g.relationships.find? (fun r => r.from_ = a ∧ r.to_ = b) with
     | some rel => [⟨a, b, rel.on_, rel.to_column.getD "id"⟩]
     | none => []) ++ pathJoins g (b :: rest)
  | _ => []

/-- The inner loop of `get_join_path`: scan the connected set (insertion
order stands in for Python's set iteration order) keeping the strictly
shortest path found so far; any call may propagate `NodeNotFound`. -/
def bestPathFrom (g : SchemaGraph) (t : String) :
    List String → Option (List String) → Except Unit (Option (List String))
  | [], best => .ok best
  | c :: cs, best =>
    match findPathBetweenTables g c t with
    | .error e => .error e
    | .ok none => bestPathFrom g t cs best
    | .ok (some p) =>
      match best with
      | none => bestPathFrom g t cs (some p)
      | some b => if p.length < b.length then bestPathFrom g t cs (some p)
                  else bestPathFrom g t cs best

/-- The outer loop of `get_join_path` over `tables[1:]`. -/
def getJoinPathAux (g : SchemaGraph) :
    List String → List String → List JoinStep → Except Unit (List JoinStep)
  | [], _, joins => .ok joins
  | t :: ts, connected, joins =>
    match bestPathFrom g t connected none with
    | .error e => .error e
    | .ok none => getJoinPathAux g ts connected joins
    | .ok (some path) => getJoinPathAux g ts (connected ++ [t]) (joins ++ pathJoins g path)

/-- Source: `SchemaGraph.get_join_path`: greedily connect each table after the first
to the already-connected set along a shortest path, emitting only
relationship-backed join steps. -/
def getJoinPath (g : SchemaGraph) (tables : List String) : Except Unit (List JoinStep) :=
  if tables.length ≤ 1 then .ok []
  else
    match tables with
    | [] => .ok []
    | t0 :: rest => getJoinPathAux g rest [t0] []

/-- The built-in default schema created by `_create_default_graph` when no
schema file is present (`SCOPING_COLUMN` at its default
`accounts_entity_id`; the default tables carry a `scoping_column` but no
`scoped` flag). -/
def defaultGraph : SchemaGraph where
  tables := [
    ("shipments", { columns := ["id", "status", "created_at", "accounts_entity_id", "order_id"],
                    scoping_column := some "accounts_entity_id",
                    description := "Shipment tracking information" }),
    ("orders", { columns := ["id", "customer_id", "total", "accounts_entity_id", "created_at"],
                 scoping_column := some "accounts_entity_id",
                 description := "Customer orders" }),
    ("customers", { columns := ["id", "name", "phone", "accounts_entity_id", "email"],
                    scoping_column := some "accounts_entity_id",
                    description := "Customer information" })]
  relationships := [
    { from_ := "shipments", to_ := "orders", on_ := "order_id" },
    { from_ := "orders", to_ := "customers", on_ := "customer_id" }]

/-- A join step is backed by a declared relationship of the schema: same
source table, target table and join column, with the step's right-hand
column being the relationship's `to_column` defaulted to `id`. -/
def BackedJoin (g : SchemaGraph) (j : JoinStep) : Prop :=
  ∃ r ∈ g.relationships, r.from_ = j.from_table ∧ r.to_ = j.to_table ∧
    r.on_ = j.join_column ∧ j.to_column = r.to_column.getD "id"

/-! ## SQL validator (`app/validators/query_validator.py`)

`validate_sql` parses the input with `sqlparse` and then works on
`str(parsed[0])`: the *first* statement only.  The statement splitter cuts
at a top-level `;` and appends the whitespace following the `;` to the
current statement (the analyzed inputs contain no semicolons inside string
literals, so quote tracking is not needed).  The best-effort sqlglot AST
tier (`_ast_validate`) silently returns `None` when the library is
unavailable or parsing fails; it is modelled as skipped. -/

/-- Source: `str(sqlparse.parse(sql)[0])`: the first statement, including the
terminating semicolon and any whitespace that follows it. -/
def firstStatement : List Char → List Char
  | [] => []
  | c :: rest => if c == ';' then c :: rest.takeWhile isWs else c :: firstStatement rest

/-- The ASCII single-quote character. -/
def quoteChar : Char := Char.ofNat 39

/-- The ASCII backtick character. -/
def backtickChar : Char := Char.ofNat 96

/-- A character of the capture group `` [`\w\.]+ `` of the table-extraction
patterns. -/
def tableNameChar (c : Char) : Bool := isWordChar c || c == backtickChar || c == '.'

/-- Match a keyword sequence (each keyword followed by `\s+`, regex
`KW1\s+KW2\s+...`) at the head of `t`, then capture the maximal nonempty
run of table-name characters. `t` and the keywords are lower-case. -/
def kwCapture : List (List Char) → List Char → Option (List Char)
  | [], t =>
    let cap := t.takeWhile tableNameChar
    if cap.isEmpty then none else some cap
  | kw :: rest, t =>
    match eatPrefix kw t with
    | none => none
    | some t1 =>
      let t2 := t1.dropWhile isWs
      if t2.length == t1.length then none
      else kwCapture rest t2

/-- Names excluded by `_extract_tables`'s blocklist regex
`^(id|count|sum|avg|min|max)$`. -/
def blockedNames : List String := ["id", "count", "sum", "avg", "min", "max"]

/-- Source: `raw.split('.')[-1].strip('`').lower()` plus the blocklist filter. The
scan already works on lower-cased text. -/
def processTableName (raw : List Char) : Option String :=
  let afterDot := (raw.reverse.takeWhile (fun c => c ≠ '.')).reverse
  let name := ((afterDot.dropWhile (fun c => c == backtickChar)).reverse.dropWhile
      (fun c => c == backtickChar)).reverse
  if name.isEmpty then none
  else if (String.mk name) ∈ blockedNames then none
  else some (String.mk name)

/-- The keyword sequences of the five extraction patterns, in source order:
`FROM`, `JOIN`, `UPDATE`, `INTO`, `DELETE FROM` (all `\bKW\s+` with
`re.IGNORECASE`). -/
def extractPatterns : List (List (List Char)) :=
  [[("from").data], [("join").data], [("update").data], [("into").data],
   [("delete").data, ("from").data]]

/-- Source: `_extract_tables`: whitespace-normalize, scan each pattern, strip
qualifiers/backticks, lower-case, and drop blocklisted names. The Python
`set` is modelled as an order-preserving deduplicated list; every match
position is scanned, which coincides with `re.finditer`'s non-overlapping
scan for the SQL shapes analyzed here. -/
def extractTables (stmt : List Char) : List String :=
  let sqlNorm := lcLower (normWs stmt)
  dedup <| extractPatterns.flatMap (fun kws =>
    (List.range (sqlNorm.length + 1)).filterMap (fun i =>
      if boundaryBefore sqlNorm i then
        match kwCapture kws (sqlNorm.drop i) with
        | some cap => processTableName cap
        | none => none
      else none))

/-- Regex `col\s*=\s*['\"]?value['\"]?` matched at the head of `t` (the
trailing optional quote always succeeds and is omitted). -/
def eqPatternAt (col value t : List Char) : Bool :=
  match eatPrefix col t with
  | none => false
  | some t1 =>
    match eatWs t1 with
    | c :: t3 =>
      if c == '=' then
        let t4 := eatWs t3
        value.isPrefixOf t4 ||
          (match t4 with
           | q :: t5 => (q == quoteChar || q == '"') && value.isPrefixOf t5
           | [] => false)
      else false
    | [] => false

/-- Regexes `col\s*=\s*%s` and `col\s*=\s*\?` (parameterized queries)
matched at the head of `t`. -/
def paramPatternAt (col t : List Char) : Bool :=
  match eatPrefix col t with
  | none => false
  | some t1 =>
    match eatWs t1 with
    | c :: t3 =>
      if c == '=' then
        let t4 := eatWs t3
        ("%s").data.isPrefixOf t4 || ("?").data.isPrefixOf t4
      else false
    | [] => false

/-- Regex `col\s+IN\s*\(\s*['\"]?entities['\"]?\s*\)` matched at the head
of `t`. The pattern text `IN` is upper-case while the searched string has
been lower-cased, exactly as in the source. -/
def inPatternAt (col entities t : List Char) : Bool :=
  match eatPrefix col t with
  | none => false
  | some t1 =>
    let t2 := t1.dropWhile isWs
    if t2.length == t1.length then false
    else
      match eatPrefix ("IN").data t2 with
      | none => false
      | some t3 =>
        match eatWs t3 with
        | c :: t4 =>
          if c == '(' then
            let t5 := eatWs t4
            let t6 := match t5 with
              | q :: rest => if q == quoteChar || q == '"' then rest else t5
              | [] => t5
            match eatPrefix entities t6 with
            | none => false
            | some t7 =>
              let t8 := match t7 with
                | q :: rest => if q == quoteChar || q == '"' then rest else t7
                | [] => t7
              match eatWs t8 with
              | c2 :: _ => c2 == ')'
              | [] => false
          else false
        | [] => false

/-- Source: `"', '".join(entities)` as used for the `IN (...)` pattern and filter. -/
def entitiesJoin (es : List String) : String := String.intercalate "', '" es

/-- Source: `_check_scoping_filter_exists_with_context`: search the *lower-cased*
statement for one of the scoping patterns of any scoped table; the scoping
value is interpolated verbatim (case-sensitively) into the pattern. -/
def checkScopingFilterExistsWithContext (scopedTablesMap : List (String × String))
    (stmt : List Char) (scopedTables : List String) (valueStr : String)
    (scopingColumn : String) (accessibleEntities : Option (List String)) : Bool :=
  let sqlStr := lcLower stmt
  scopedTables.any (fun table =>
    let col := (alGetD scopedTablesMap table scopingColumn).data
    (List.range (sqlStr.length + 1)).any (fun i =>
      eqPatternAt col valueStr.data (sqlStr.drop i) ||
      paramPatternAt col (sqlStr.drop i) ||
      (match accessibleEntities with
       | some es =>
         if es.length > 1 then inPatternAt col (entitiesJoin es).data (sqlStr.drop i)
         else false
       | none => false)))

/-- The filter conditions built by `_append_scoping_filter_with_context`,
joined with `" AND "`. -/
def buildFilterClause (scopedTablesMap : List (String × String))
    (scopedTables : List String) (valueStr : String) (scopingColumn : String)
    (accessibleEntities : Option (List String)) : String :=
  String.intercalate " AND " (scopedTables.map (fun table =>
    let col := alGetD scopedTablesMap table scopingColumn
    match accessibleEntities with
    | some es =>
      if es.length > 1 then col ++ " IN ('" ++ entitiesJoin es ++ "')"
      else col ++ " = '" ++ valueStr ++ "'"
    | none => col ++ " = '" ++ valueStr ++ "'"))

/-- The keyword phrases of the lookahead
`(?=\b(?:ORDER BY|GROUP BY|LIMIT|OFFSET)\b)`. -/
def clauseKeywords : List String := ["order by", "group by", "limit", "offset"]

/-- Insertion point of the new `WHERE` clause: the end of the leftmost
match of `\bFROM\b.*?(?=\b(?:ORDER BY|GROUP BY|LIMIT|OFFSET)\b)` with
`re.DOTALL`, i.e. the first clause-keyword position at or after the end of
the first word-boundary `FROM`. -/
def fromInsertPos (stmt : List Char) : Option Nat :=
  let sLower := lcLower stmt
  match firstWordIdx sLower ("from").data with
  | none => none
  | some f =>
    (List.range (sLower.length + 1)).find? (fun j =>
      decide (f + 4 ≤ j) &&
      clauseKeywords.any (fun kw => wordAt sLower kw.data j))

/-- Source: `_append_scoping_filter_with_context`: append `AND (...)` to an
existing `WHERE`, insert a new `WHERE` before `ORDER BY/GROUP BY/LIMIT/
OFFSET`, or append at the end after `rstrip(';')` as a last resort. The
`try/except` of the source cannot fail here, so the result is total. -/
def appendScopingFilterWithContext (scopedTablesMap : List (String × String))
    (stmt : List Char) (scopedTables : List String) (valueStr : String)
    (scopingColumn : String) (accessibleEntities : Option (List String)) : List Char :=
  let filterClause :=
    buildFilterClause scopedTablesMap scopedTables valueStr scopingColumn accessibleEntities
  match firstWordIdx (lcLower stmt) ("where").data with
  | some i => insertAt stmt (" AND (" ++ filterClause ++ ")").data (i + 5)
  | none =>
    match fromInsertPos stmt with
    | some j => insertAt stmt (" WHERE " ++ filterClause).data j
    | none => rstripSemi stmt ++ (" WHERE " ++ filterClause ++ ";").data

/-- Python `repr` of a list of strings, as interpolated into the scoping
error messages. -/
def pyStrList (xs : List String) : String :=
  "[" ++ String.intercalate ", " (xs.map (fun x => "'" ++ x ++ "'")) ++ "]"

/-- The result dict of `_validate_scoping_filtering_with_context`; absent
keys are `none`. -/
structure ScopingResult where
  valid : Bool
  error : Option String := none
  modifiedSql : Option String := none
  scopingApplied : Option Bool := none
  deriving Repr, DecidableEq

/-- Security configuration (`SecurityConfig` defaults plus the parsed
`CUSTOM_VALIDATION_RULES`, whose default is the empty dict). -/
structure SecurityCfg where
  SCOPING_COLUMN : String := "accounts_entity_id"
  ENABLE_AUTO_SCOPING : Bool := true
  max_tables : Option Nat := none
  allowed_operations : Option (List String) := none
  deriving Repr

/-- Source: `settings.get_scoped_tables(schema_graph)` with a loaded graph: the
scoped tables mapped to their scoping column (defaulting to
`SCOPING_COLUMN`). -/
def getScopedTables (g : SchemaGraph) (cfg : SecurityCfg) : List (String × String) :=
  g.tables.filterMap (fun p =>
    if p.2.scoped_ then some (p.1, p.2.scoping_column.getD cfg.SCOPING_COLUMN) else none)

/-- Source: `_validate_scoping_filtering_with_context`. An empty repaired string
would be falsy in Python (`if modified_sql:`), hence the `isEmpty` test. -/
def validateScopingFilteringWithContext (scopedTablesMap : List (String × String))
    (cfg : SecurityCfg) (stmt : List Char) (scopedTables : List String)
    (valueStr : String) (scopingColumn : String)
    (accessibleEntities : Option (List String)) : ScopingResult :=
  if scopedTables.isEmpty then { valid := true, scopingApplied := some false }
  else if checkScopingFilterExistsWithContext scopedTablesMap stmt scopedTables
      valueStr scopingColumn accessibleEntities then
    { valid := true, scopingApplied := some true }
  else if ¬cfg.ENABLE_AUTO_SCOPING then
    { valid := false,
      error := some ("Scoped tables " ++ pyStrList scopedTables ++
        " must include proper scoping filter") }
  else
    let modified := appendScopingFilterWithContext scopedTablesMap stmt scopedTables
      valueStr scopingColumn accessibleEntities
    if modified.isEmpty then
      { valid := false,
        error := some ("Scoped tables " ++ pyStrList scopedTables ++
          " must include proper scoping filter") }
    else
      { valid := true, modifiedSql := some (String.mk modified),
        scopingApplied := some true }

/-- Outcome of one of the boolean check passes. -/
inductive CheckResult where
  | pass
  | fail (error : String)
  deriving Repr, DecidableEq

/-- The dangerous keywords of `_perform_safety_checks`, in source order. -/
def dangerousKeywords : List String :=
  ["DROP", "DELETE", "TRUNCATE", "ALTER", "CREATE", "INSERT", "UPDATE"]

/-- Regex `;\s*[A-Za-z]`: a semicolon followed (after whitespace) by a
letter — the multi-statement check. -/
def semiThenLetter (s : List Char) : Bool :=
  (List.range s.length).any (fun i =>
    (s.get? i == some ';') &&
    (match eatWs (s.drop (i + 1)) with
     | c :: _ => c.isAlpha
     | [] => false))

/-- Regex `--\s*[A-Za-z]`: a line comment followed by a letter. -/
def lineCommentThenLetter (s : List Char) : Bool :=
  (List.range (s.length + 1)).any (fun i =>
    prefixAt ("--").data s i &&
    (match eatWs (s.drop (i + 2)) with
     | c :: _ => c.isAlpha
     | [] => false))

/-- Regex `/\*.*?\*/` with `re.DOTALL`: an opening `/*` with a closing
`*/` anywhere at or after it. -/
def blockCommentFound (s : List Char) : Bool :=
  (List.range (s.length + 1)).any (fun i =>
    prefixAt ("/*").data s i &&
    (List.range (s.length + 1)).any (fun k => prefixAt ("*/").data s (i + 2 + k)))

/-- Source: `_perform_safety_checks`: word-boundary dangerous keywords, the
multi-statement pattern, line comments and block comments, each a hard
rejection — all evaluated on `str(statement).upper()`. -/
def performSafetyChecks (stmt : List Char) : CheckResult :=
  let sqlStr := lcUpper stmt
  match dangerousKeywords.find? (fun kw => containsWord sqlStr kw.data) with
  | some kw => .fail ("Operation '" ++ kw ++ "' is not allowed for security reasons")
  | none =>
    if semiThenLetter sqlStr then
      .fail "Multiple statements detected - potential SQL injection"
    else if lineCommentThenLetter sqlStr then
      .fail "SQL comments detected - potential injection"
    else if blockCommentFound sqlStr then
      .fail "Block comments detected - potential injection"
    else .pass

/-- The operations checked against the allow-list, in source order. -/
def operationList : List String :=
  ["SELECT", "INSERT", "UPDATE", "DELETE", "DROP", "CREATE", "ALTER"]

/-- Regex `a\s*=\s*b` (with `a`, `b` the literal dotted column texts)
found anywhere in `s`. -/
def joinEqFound (s a b : List Char) : Bool :=
  (List.range (s.length + 1)).any (fun i =>
    match eatPrefix a (s.drop i) with
    | none => false
    | some t1 =>
      match eatWs t1 with
      | c :: t3 => c == '=' && b.isPrefixOf (eatWs t3)
      | [] => false)

/-- The join-direction sanity check of `_perform_custom_validation`: for
every relationship whose expected right-hand column is not `id`, flag SQL
that joins via `.id` on the relationship's target. -/
def joinDirectionIssues (g : SchemaGraph) (stmt : List Char)
    (usedTables : List String) : List String :=
  let sqlLower := lcLower stmt
  g.relationships.flatMap (fun rel =>
    if rel.from_ = "" ∨ rel.to_ = "" ∨ rel.on_ = "" then []
    else if rel.from_ ∉ usedTables ∨ rel.to_ ∉ usedTables then []
    else
      let targetCols := (alGetD g.tables rel.to_ {}).columns.map (fun c => pyLower c)
      let fallback := if pyLower rel.on_ ∈ targetCols then pyLower rel.on_ else "id"
      let expectedRight := match rel.to_column with
        | some tc => if tc ≠ "" then pyLower tc else fallback
        | none => fallback
      if expectedRight ≠ "id" then
        let msg := "Incorrect join between " ++ rel.from_ ++ " and " ++ rel.to_ ++
          ". Use " ++ rel.from_ ++ "." ++ rel.on_ ++ " = " ++ rel.to_ ++ "." ++ expectedRight
        let p1 := joinEqFound sqlLower (rel.from_ ++ "." ++ rel.on_).data (rel.to_ ++ ".id").data
        let p2 := joinEqFound sqlLower (rel.to_ ++ ".id").data (rel.from_ ++ "." ++ rel.on_).data
        (if p1 then [msg] else []) ++ (if p2 then [msg] else [])
      else [])

/-- Source: `_perform_custom_validation`: the configured max-table rule (`0` is
falsy and disables the rule), the operation allow-list (defaulting to
`['SELECT']`) and the join-direction sanity check. -/
def performCustomValidation (g : SchemaGraph) (cfg : SecurityCfg)
    (stmt : List Char) (usedTables : List String) : CheckResult :=
  let maxViolated : Bool := match cfg.max_tables with
    | some m => decide (m ≠ 0) && decide (usedTables.length > m)
    | none => false
  if maxViolated then
    .fail ("Query uses too many tables. Maximum allowed: " ++
      (toString (cfg.max_tables.getD 0)) ++ ", found: " ++ toString usedTables.length)
  else
    let allowed := cfg.allowed_operations.getD ["SELECT"]
    let sqlStr := lcUpper stmt
    match operationList.find? (fun op =>
        containsWord sqlStr op.data && decide (op ∉ allowed)) with
    | some op =>
      .fail ("Operation '" ++ op ++ "' is not allowed. Allowed operations: " ++
        String.intercalate ", " allowed)
    | none =>
      match joinDirectionIssues g stmt usedTables with
      | [] => .pass
      | issues => .fail (String.intercalate "; " issues)

/-- The outcome of `validate_sql` (the `"valid": True` dict with its
`tables`, `scoped_tables`, `modified_sql`, `scoping_applied`, `ast_used`
keys, or the `"valid": False` dict with its error). -/
inductive SqlResult where
  | valid (tables : List String) (scopedTables : List String) (modifiedSql : String)
      (scopingApplied : Bool) (astUsed : Bool)
  | invalid (error : String)
  deriving Repr, DecidableEq

/-- Source: `QueryValidator.validate_sql` with `user_context=None` (the legacy
branch: scoping required, the global scoping column, and
`accessible_entities = [scoping_value] if scoping_value else None`).  The
sqlglot AST tier is modelled as unavailable (the source skips it silently),
so `ast_used` is `false`.  A `None` scoping value is interpolated into the
regex patterns and filters as the text `None`, as Python f-strings do. -/
def validateSql (g : SchemaGraph) (cfg : SecurityCfg) (sql : String)
    (scopingValue : Option String) : SqlResult :=
  if sql.data.isEmpty then .invalid "Invalid SQL syntax"
  else
    let stmt := firstStatement sql.data
    let scopedTablesMap := getScopedTables g cfg
    let usedTables := extractTables stmt
    let scopedTables := usedTables.filter (fun t => alContains scopedTablesMap t)
    let scopingColumn := cfg.SCOPING_COLUMN
    let accessible : Option (List String) := scopingValue.map (fun v => [v])
    let valueStr := scopingValue.getD "None"
    let vres :=
      if ¬scopedTables.isEmpty then
        validateScopingFilteringWithContext scopedTablesMap cfg stmt scopedTables
          valueStr scopingColumn accessible
      else { valid := true, scopingApplied := some false : ScopingResult }
    if ¬vres.valid then .invalid (vres.error.getD "")
    else
      match performSafetyChecks stmt with
      | .fail e => .invalid e
      | .pass =>
        match performCustomValidation g cfg stmt usedTables with
        | .fail e => .invalid e
        | .pass =>
          .valid usedTables scopedTables (vres.modifiedSql.getD sql)
            (vres.scopingApplied.getD true) false

/-- The schema used by the scoping test properties: `shipments` scoped on
`accounts_entity_id`. -/
def scopedShipmentsGraph : SchemaGraph where
  tables := [("shipments",
    { columns := ["id", "status", "created_at", "accounts_entity_id", "order_id"],
      scoped_ := true, scoping_column := some "accounts_entity_id",
      description := "Shipment tracking information" })]
  relationships := []

/-- The same schema with `shipments` not scoped. -/
def unscopedShipmentsGraph : SchemaGraph where
  tables := [("shipments",
    { columns := ["id", "status", "created_at", "accounts_entity_id", "order_id"],
      scoped_ := false, description := "Shipment tracking information" })]
  relationships := []

/-- A schema containing a table literally named `updates`. -/
def updatesGraph : SchemaGraph where
  tables := [("updates", { columns := ["id", "created_at"] })]
  relationships := []

/-! ## Plan validator (`app/validators/plan_validator.py`)

`validate_plan` receives raw LLM text; the JSON-extraction/parse tier
(`_extract_json_object` + `json.loads`) is upstream of every property
analyzed here, so the embedding starts from the parsed object: a dict in
which each of the 8 required keys may be absent (`Option` fields). -/

/-- A join entry of a plan: a dict whose keys may all be absent. -/
structure PJoin where
  from_table : Option String := none
  to_table : Option String := none
  from_column : Option String := none
  to_column : Option String := none
  jtype : Option String := none
  deriving Repr, DecidableEq

/-- A parsed plan object (dict); `none` marks an absent key. `limit` may be
present with JSON `null` (`some none`). -/
structure PlanObj where
  tables : Option (List String) := none
  columns : Option (List (String × List String)) := none
  joins : Option (List PJoin) := none
  filters : Option (List String) := none
  group_by : Option (List String) := none
  order_by : Option (List String) := none
  limit : Option (Option Int) := none
  needs_scoping : Option Bool := none
  deriving Repr, DecidableEq

/-- A plan in which all 8 required keys are present. -/
structure Plan where
  tables : List String
  columns : List (String × List String)
  joins : List PJoin
  filters : List String
  group_by : List String
  order_by : List String
  limit : Option Int
  needs_scoping : Bool
  deriving Repr, DecidableEq

/-- The `required_fields` list, in source order. -/
def requiredFields : List String :=
  ["tables", "columns", "joins", "filters", "group_by", "order_by", "limit", "needs_scoping"]

/-- Python `field in plan` for each required field. -/
def fieldPresent (p : PlanObj) : String → Bool
  | "tables" => p.tables.isSome
  | "columns" => p.columns.isSome
  | "joins" => p.joins.isSome
  | "filters" => p.filters.isSome
  | "group_by" => p.group_by.isSome
  | "order_by" => p.order_by.isSome
  | "limit" => p.limit.isSome
  | "needs_scoping" => p.needs_scoping.isSome
  | _ => false

/-- Source: `[field for field in required_fields if field not in plan]`. -/
def missingFields (p : PlanObj) : List String :=
  requiredFields.filter (fun f => ¬ fieldPresent p f)

/-- The typed view of a plan object once the presence check has passed
(each access is the source's `plan.get(key, default)`). -/
def toPlan (p : PlanObj) : Plan where
  tables := p.tables.getD []
  columns := p.columns.getD []
  joins := p.joins.getD []
  filters := p.filters.getD []
  group_by := p.group_by.getD []
  order_by := p.order_by.getD []
  limit := p.limit.getD none
  needs_scoping := p.needs_scoping.getD false

/-- First relationship with `rel['from'] == a and rel['to'] == b`
(the generator `next(...)` in `_synthesize_join_bridges`). -/
def relFirst (g : SchemaGraph) (a b : String) : Option Rel :=
  g.relationships.find? (fun r => r.from_ = a ∧ r.to_ = b)

/-- Last relationship keyed `(a, b)`: `_validate_joins` builds a dict keyed
by `(from, to)`, so a later relationship overwrites an earlier one. -/
def relLast (g : SchemaGraph) (a b : String) : Option Rel :=
  g.relationships.reverse.find? (fun r => r.from_ = a ∧ r.to_ = b)

/-- Python `set.add` determinized on an insertion-ordered list. -/
def addConn (connected : List String) (b : String) : List String :=
  if b ∈ connected then connected else connected ++ [b]

/-- Walk the consecutive pairs of one shortest path, adding implied joins
(the inner `for i in range(len(path) - 1)` loop of
`_synthesize_join_bridges`); returns the updated connected set, pair set
and join list. -/
def synthPath (g : SchemaGraph) :
    List String → List String → List (Option String × Option String) → List PJoin →
    List String × List (Option String × Option String) × List PJoin
  | a :: b :: rest, connected, pairs, joins =>
    if (some a, some b) ∈ pairs then synthPath g (b :: rest) (addConn connected b) pairs joins
    else
      match relFirst g a b with
      | none => synthPath g (b :: rest) connected pairs joins
      | some rel =>
        synthPath g (b :: rest) (addConn connected b) (pairs ++ [(some a, some b)])
          (joins ++ [{ from_table := some a, to_table := some b,
                       from_column := some rel.on_,
                       to_column := some (rel.to_column.getD "id"),
                       jtype := some "INNER" }])
  | _, connected, pairs, joins => (connected, pairs, joins)

/-- The outer loop of `_synthesize_join_bridges` over `tables[1:]`. The
`NodeNotFound` exception of `find_path_between_tables` propagates to the
function's `except` clause; the error value carries the join list built so
far (Python appends mutate the plan's own list in place). -/
def synthLoop (g : SchemaGraph) :
    List String → List String → List (Option String × Option String) → List PJoin →
    Except (List PJoin) (List PJoin)
  | [], _, _, joins => .ok joins
  | t :: ts, connected, pairs, joins =>
    if t ∈ connected then synthLoop g ts connected pairs joins
    else
      match findPathBetweenTables g (connected.getLastD "") t with
      | .error _ => .error joins
      | .ok none => synthLoop g ts connected pairs joins
      | .ok (some path) =>
        match synthPath g path connected pairs joins with
        | (connected2, pairs2, joins2) => synthLoop g ts (addConn connected2 t) pairs2 joins2

/-- The tables a join entry implies beyond the declared table list
(`if t and t not in tables`). -/
def impliedOf (tables : List String) (j : PJoin) : List String :=
  (match j.from_table with
   | some t => if t ≠ "" ∧ t ∉ tables then [t] else []
   | none => []) ++
  (match j.to_table with
   | some t => if t ≠ "" ∧ t ∉ tables then [t] else []
   | none => [])

/-- All tables implied by the (possibly extended) join list. -/
def impliedTables (tables : List String) (acc : List PJoin) : List String :=
  acc.flatMap (impliedOf tables)

/-- The table list after `_synthesize_join_bridges` succeeds: unchanged
when no join implies a new table, otherwise `list(dict.fromkeys(tables +
implied_tables))`. -/
def synthTables (tables : List String) (acc : List PJoin) : List String :=
  if (impliedTables tables acc).isEmpty then tables
  else dedup (tables ++ impliedTables tables acc)

/-- Source: `_synthesize_join_bridges`: connect a disconnected table set through
the schema graph, appending bridge joins and any implied bridge tables.
On the `except Exception` path the table list is untouched, and the join
list keeps the partial appends only when the plan's own (shared, non-empty)
list was being mutated — `plan.get("joins", []) or []` makes a fresh list
exactly when the plan's `joins` is empty. -/
def synthesizeJoinBridges (g : SchemaGraph) (p : Plan) : Plan :=
  if p.tables.isEmpty ∨ p.tables.length < 2 then p
  else
    match p.tables with
    | [] => p
    | t0 :: rest =>
      match synthLoop g rest [t0] (p.joins.map (fun j => (j.from_table, j.to_table))) p.joins with
      | .error accErr => { p with joins := if p.joins.isEmpty then p.joins else accErr }
      | .ok acc => { p with tables := synthTables p.tables acc, joins := acc }

/-- One step of `_validate_columns`: skip tables missing from the schema,
otherwise keep only the plan columns that exist in the table. -/
def validateColumnsAux (g : SchemaGraph) (columnsDict : List (String × List String)) :
    List String → List (String × List String) → List (String × List String)
  | [], acc => acc
  | table :: rest, acc =>
    match alGet g.tables table with
    | none => validateColumnsAux g columnsDict rest acc
    | some info =>
      validateColumnsAux g columnsDict rest
        (alSet acc table ((alGetD columnsDict table []).filter (fun col => col ∈ info.columns)))

/-- Source: `_validate_columns`. -/
def validateColumns (g : SchemaGraph) (columnsDict : List (String × List String))
    (tables : List String) : List (String × List String) :=
  validateColumnsAux g columnsDict tables []

/-- Source: `_validate_joins`: keep only joins between selected tables whose
`(from, to)` pair is a declared relationship, rewriting the join columns
to the schema-declared ones. -/
def validateJoins (g : SchemaGraph) (joins : List PJoin) (tables : List String) :
    List PJoin :=
  if joins.isEmpty then joins
  else joins.filterMap (fun j =>
    match j.from_table, j.to_table with
    | some a, some b =>
      if a ∈ tables ∧ b ∈ tables then
        match relLast g a b with
        | some rel =>
          some { from_table := some a, to_table := some b,
                 from_column := some rel.on_,
                 to_column := some (rel.to_column.getD "id"),
                 jtype := some (j.jtype.getD "INNER") }
        | none => none
      else none
    | _, _ => none)

/-- Source: `_validate_scoping`: true iff any selected table is marked scoped. -/
def validateScoping (g : SchemaGraph) (tables : List String) : Bool :=
  tables.any (fun t => (alGetD g.tables t {}).scoped_)

/-- The count/aggregate intent keyword set. -/
def countKeywords : List String := ["how many", "count", "number of", "total"]

/-- The list/browse intent keyword set. -/
def listKeywords : List String := ["list", "show", "get", "find"]

/-- The time-window intent keyword set. -/
def timeKeywords : List String := ["today", "yesterday", "week", "month", "day"]

/-- Python substring test `needle in hay` on strings. -/
def strContains (hay needle : String) : Bool := containsSubstr hay.data needle.data

/-- Source: `any(word in query_lower for word in [count keywords])`. -/
def isCountIntent (q : String) : Bool :=
  countKeywords.any (fun w => strContains (pyLower q) w)

/-- Source: `any(word in query_lower for word in [list keywords])`. -/
def isListIntent (q : String) : Bool :=
  listKeywords.any (fun w => strContains (pyLower q) w)

/-- Source: `any(word in query_lower for word in [time keywords])`. -/
def hasTimeKeyword (q : String) : Bool :=
  timeKeywords.any (fun w => strContains (pyLower q) w)

/-- The substring terms identifying a display column. -/
def displayTerms : List String := ["name", "title", "entity_name"]

/-- Source: `if table not in plan["columns"]: plan["columns"][table] = []`. -/
def ensureKey (acc : List (String × List String)) (table : String) :
    List (String × List String) :=
  if alContains acc table then acc else alSet acc table []

/-- The declared columns of `table`
(`self.schema_graph.tables.get(table, {}).get('columns', [])`). -/
def declaredColumns (g : SchemaGraph) (table : String) : List String :=
  (alGetD g.tables table {}).columns

/-- The display columns of a table: columns containing a display term. -/
def displayColsOf (g : SchemaGraph) (table : String) : List String :=
  (declaredColumns g table).filter (fun col =>
    displayTerms.any (fun term => strContains (pyLower col) term))

/-- Source: `if col not in cur: cur.append(col)`. -/
def addIfMissing (cur : List String) (c : String) : List String :=
  if c ∈ cur then cur else cur ++ [c]

/-- Append `first_name` then `last_name` to the current column list when
not already present (the two sequential `append` calls of the source). -/
def usersNameCols (cur : List String) : List String :=
  addIfMissing (addIfMissing cur "first_name") "last_name"

/-- The `users` special case of `_ensure_display_columns`. -/
def usersStep (g : SchemaGraph) (acc : List (String × List String))
    (table : String) : List (String × List String) :=
  if table = "users" ∧ "first_name" ∈ declaredColumns g table ∧
      "last_name" ∈ declaredColumns g table then
    alSet acc table (usersNameCols (alGetD acc table []))
  else acc

/-- The final step of `_ensure_display_columns`: add up to two display
columns when the table still has none. -/
def displayFill (g : SchemaGraph) (acc : List (String × List String))
    (table : String) : List (String × List String) :=
  if (alGetD acc table []).isEmpty ∧ ¬(displayColsOf g table).isEmpty then
    alSet acc table (alGetD acc table [] ++ (displayColsOf g table).take 2)
  else acc

/-- One step of `_ensure_display_columns` for a single table. -/
def ensureDisplayStep (g : SchemaGraph) (acc : List (String × List String))
    (table : String) : List (String × List String) :=
  displayFill g (usersStep g (ensureKey acc table) table) table

/-- Source: `_ensure_display_columns`. -/
def ensureDisplayColumns (g : SchemaGraph) (p : Plan) : Plan :=
  { p with columns := p.tables.foldl (ensureDisplayStep g) p.columns }

/-- The time columns of a table: columns containing `date` or `created`. -/
def timeColsOf (g : SchemaGraph) (table : String) : List String :=
  (declaredColumns g table).filter (fun col =>
    strContains (pyLower col) "date" || strContains (pyLower col) "created")

/-- The final step of `_ensure_time_columns`: when no time column is
selected yet, append the first one (if any). -/
def timeFill (g : SchemaGraph) (acc : List (String × List String))
    (table : String) : List (String × List String) :=
  if ¬ (timeColsOf g table).any (fun c => c ∈ alGetD acc table []) then
    match timeColsOf g table with
    | [] => acc
    | c :: _ => alSet acc table (alGetD acc table [] ++ [c])
  else acc

/-- One step of `_ensure_time_columns` for a single table. -/
def ensureTimeStep (g : SchemaGraph) (acc : List (String × List String))
    (table : String) : List (String × List String) :=
  timeFill g (ensureKey acc table) table

/-- Source: `_ensure_time_columns`. -/
def ensureTimeColumns (g : SchemaGraph) (p : Plan) : Plan :=
  { p with columns := p.tables.foldl (ensureTimeStep g) p.columns }

/-- The count/list branch of `_apply_intent_repairs`: count intent clears
the projection (`columns = {}`, `group_by = []`, `limit = None`); list
intent ensures display columns. -/
def intentBase (g : SchemaGraph) (p : Plan) (q : String) : Plan :=
  if isCountIntent q then { p with columns := [], group_by := [], limit := none }
  else if isListIntent q then ensureDisplayColumns g p
  else p

/-- Source: `_apply_intent_repairs`: the count/list branch followed by the
time-keyword branch (which ensures time columns only outside count
intent). -/
def applyIntentRepairs (g : SchemaGraph) (p : Plan) (q : String) : Plan :=
  if hasTimeKeyword q then
    if isCountIntent q then intentBase g p q else ensureTimeColumns g (intentBase g p q)
  else intentBase g p q

/-- The outcome of `validate_plan`. -/
inductive PlanResult where
  | valid (repairedPlan : Plan)
  | invalid (error : String)
  deriving Repr, DecidableEq

/-- The error message of the missing-field rejection
(`f"Missing required fields: {missing_fields}"`). -/
def missingMsg (missing : List String) : String :=
  "Missing required fields: " ++ pyStrList missing

/-- Source: `plan_tables - valid_tables` (`list(set - set)` determinized as an
order-preserving deduplicated filter). -/
def invalidTablesOf (g : SchemaGraph) (plan1 : Plan) : List String :=
  (dedup plan1.tables).filter (fun t => t ∉ g.tables.map Prod.fst)

/-- Source: `list(plan_tables & valid_tables)` (determinized likewise). -/
def repairedTables (g : SchemaGraph) (plan1 : Plan) : List String :=
  (dedup plan1.tables).filter (fun t => t ∈ g.tables.map Prod.fst)

/-- Steps 5-8 of `validate_plan`: column pruning, join rewriting, scoping
recomputation, intent repair. The join rewriting reads the plan's original
joins and the repaired table set, the scoping flag reads the repaired table
set; neither is affected by the column pruning. -/
def finishPlan (g : SchemaGraph) (plan2 : Plan) (userQuery : String) : Plan :=
  applyIntentRepairs g
    { plan2 with columns := validateColumns g plan2.columns plan2.tables,
                 joins := validateJoins g plan2.joins plan2.tables,
                 needs_scoping := validateScoping g plan2.tables } userQuery

/-- Source: `PlanValidator.validate_plan` after JSON parsing: required-field check,
join-bridge synthesis, unknown-table repair (the repair branch runs only
when an unknown table is present, and rejects only when it empties the
table set), then the finishing repairs. -/
def validatePlan (g : SchemaGraph) (p : PlanObj) (userQuery : String) : PlanResult :=
  if ¬(missingFields p).isEmpty then .invalid (missingMsg (missingFields p))
  else if ¬(invalidTablesOf g (synthesizeJoinBridges g (toPlan p))).isEmpty then
    if (repairedTables g (synthesizeJoinBridges g (toPlan p))).isEmpty then
      .invalid ("No valid tables found. Invalid tables: " ++
        pyStrList (invalidTablesOf g (synthesizeJoinBridges g (toPlan p))))
    else
      .valid (finishPlan g
        { synthesizeJoinBridges g (toPlan p) with
          tables := repairedTables g (synthesizeJoinBridges g (toPlan p)) } userQuery)
  else .valid (finishPlan g (synthesizeJoinBridges g (toPlan p)) userQuery)

/-- Columns dict well-formedness: every table key resolves in the schema
and every listed column exists in that table's declared columns. -/
def tableColumnsOk (g : SchemaGraph) (pr : String × List String) : Bool :=
  match alGet g.tables pr.1 with
  | some info => pr.2.all (fun c => decide (c ∈ info.columns))
  | none => false

/-- All entries of a columns dict are well-formed. -/
def columnsWellFormed (g : SchemaGraph) (cols : List (String × List String)) : Bool :=
  cols.all (tableColumnsOk g)

/-- The plan object with every required field absent. -/
def emptyPlanObj : PlanObj := {}

/-- The C4 plan: its `tables` list holds only the unknown table `bogus`
(twice, so the bridge loop never calls the path finder), while its `joins`
list mentions the schema tables `shipments` and `orders`. -/
def c4Plan : PlanObj where
  tables := some ["bogus", "bogus"]
  columns := some []
  joins := some [{ from_table := some "shipments", to_table := some "orders" }]
  filters := some []
  group_by := some []
  order_by := some []
  limit := some none
  needs_scoping := some false

/-- A plan whose projection fields are populated, for the count-intent
repair witness. -/
def c7Plan : PlanObj where
  tables := some ["shipments"]
  columns := some [("shipments", ["status"])]
  joins := some []
  filters := some []
  group_by := some ["status"]
  order_by := some []
  limit := some (some 5)
  needs_scoping := some false

/-- The repaired plan produced for `c7Plan` under count intent. -/
def c7Expected : Plan where
  tables := ["shipments"]
  columns := []
  joins := []
  filters := []
  group_by := []
  order_by := []
  limit := none
  needs_scoping := false

/-- A plan with one unknown column, for the column-invariant witness. -/
def c10Plan : PlanObj where
  tables := some ["customers"]
  columns := some [("customers", ["name", "ghost"])]
  joins := some []
  filters := some []
  group_by := some []
  order_by := some []
  limit := some none
  needs_scoping := some false

/-- The repaired plan produced for `c10Plan` on a list/time query. -/
def c10Expected : Plan where
  tables := ["customers"]
  columns := [("customers", ["name"])]
  joins := []
  filters := []
  group_by := []
  order_by := []
  limit := none
  needs_scoping := false

/-! ## Orchestration loop (`app/intelligent_sql_generator.py`)

`_generate_with_validation_loop` drives `while attempt <
MAX_VALIDATION_ATTEMPTS`, where every iteration either returns or
increments `attempt`.  The external effects of one iteration (the LLM
call, the intent check on the generated SQL, the combined
validation/schema-accuracy/extra-table/DB-feedback verdict) are modelled
as a per-attempt outcome oracle; `_refine_schema_context`'s effect on the
table set is a refine oracle.  The control flow — which branch runs on
each outcome, what is returned, and how `attempt` advances — is translated
from the source. -/

/-- Source: `self.MAX_VALIDATION_ATTEMPTS = 3`. -/
def MAX_VALIDATION_ATTEMPTS : Nat := 3

/-- What one loop iteration's external computations produce:
* `exn`: an exception escaped the `try` body;
* `countMismatch`: a non-count question got a `SELECT COUNT(` answer
  (the early refinement branch with its fixed error message);
* `invalidSql`: validation failed (including the plan-table check and a
  failed `EXPLAIN` feedback probe), with the attempted SQL and the error;
* `validSql`: validation succeeded, with the repaired SQL and tables. -/
inductive AttemptOutcome where
  | exn (msg : String)
  | countMismatch (sql : String)
  | invalidSql (sql : String) (err : String)
  | validSql (sql : String) (modifiedSql : String) (tables : List String)
  deriving Repr, DecidableEq

/-- Is the outcome a failed validation? -/
def AttemptOutcome.isInvalidSql : AttemptOutcome → Bool
  | .invalidSql _ _ => true
  | _ => false

/-- The result dict of `_generate_with_validation_loop` (the
`schema_tokens` diagnostic of the success dict is omitted). -/
structure GenResult where
  success : Bool
  sql : String
  tables_used : List String
  attempts : Nat
  error : Option String
  deriving Repr, DecidableEq

/-- The fixed error of the COUNT-mismatch terminal return. -/
def countMismatchMsg : String :=
  "LLM returned COUNT but details were requested. Regenerate with detailed projection."

/-- The terminal error after exhausting the attempts, retaining the last
validation error. -/
def exhaustedMsg (err : String) : String :=
  "Failed to generate valid SQL after " ++ toString MAX_VALIDATION_ATTEMPTS ++
  " attempts. Last validation error: " ++ err

/-- The `while` loop of `_generate_with_validation_loop`.  On
`validSql` the success dict is returned with `attempt + 1`; on
`countMismatch` and `invalidSql` the attempt counter advances and the
loop either refines and retries or ends holding that attempt's SQL and
error; on `exn` the counter advances without refinement. The final
`else` is unreachable for an entry at `attempt = 0` since
`MAX_VALIDATION_ATTEMPTS = 3 > 0`. -/
def generationLoopAux (oracle : Nat → AttemptOutcome)
    (refineT : Nat → List String → List String)
    (attempt : Nat) (tables : List String) : GenResult :=
  if _h : attempt < MAX_VALIDATION_ATTEMPTS then
    match oracle attempt with
    | .validSql _ modifiedSql tbls =>
      { success := true, sql := modifiedSql, tables_used := tbls,
        attempts := attempt + 1, error := none }
    | .countMismatch sql =>
      if attempt + 1 < MAX_VALIDATION_ATTEMPTS then
        generationLoopAux oracle refineT (attempt + 1) (refineT attempt tables)
      else
        { success := false, sql := sql, tables_used := tables,
          attempts := attempt + 1, error := some countMismatchMsg }
    | .invalidSql sql err =>
      if attempt + 1 < MAX_VALIDATION_ATTEMPTS then
        generationLoopAux oracle refineT (attempt + 1) (refineT attempt tables)
      else
        { success := false, sql := sql, tables_used := tables,
          attempts := attempt + 1, error := some (exhaustedMsg err) }
    | .exn msg =>
      if attempt + 1 ≥ MAX_VALIDATION_ATTEMPTS then
        { success := false, sql := "", tables_used := tables,
          attempts := attempt + 1, error := some ("SQL generation failed: " ++ msg) }
      else generationLoopAux oracle refineT (attempt + 1) tables
  else
    { success := false, sql := "", tables_used := tables, attempts := attempt,
      error := some (exhaustedMsg "Unknown error") }
termination_by MAX_VALIDATION_ATTEMPTS - attempt
decreasing_by all_goals omega

/-- Source: `_generate_with_validation_loop`: start at `attempt = 0` with a copy
of the relevant tables. -/
def generateWithValidationLoop (oracle : Nat → AttemptOutcome)
    (refineT : Nat → List String → List String)
    (initialTables : List String) : GenResult :=
  generationLoopAux oracle refineT 0 initialTables

/-! ## Retrieval index (`app/loaders/schema_index.py`)

`search_tables` combines four score terms per table.  The three numeric
component scores are float-valued in the source and two of them call into
external libraries (the BM25 term uses `math.log`, the similarity term is
sklearn's TF-IDF cosine, the structural term NetworkX degree centrality);
they are modelled as a rational-valued oracle, at the same granularity at
which the spec names them.  The combination weights (`1.0`, `0.8`,
`0.3`), the keyword boost (`+2.0` per matching keyword/token pair), the
`min_score` filter, the stable descending sort and the `top_k` truncation
are translated from the source, with the float literals determinized to
the exact rationals `1`, `4/5`, `3/10`, `2`. -/

/-- Source: `re.findall(r'\b\w+\b', text.lower())`: maximal word-character runs. -/
def tokenizeAux : List Char → List Char → List String
  | [], cur => if cur.isEmpty then [] else [String.mk cur.reverse]
  | c :: rest, cur =>
    if isWordChar c then tokenizeAux rest (c :: cur)
    else if cur.isEmpty then tokenizeAux rest []
    else String.mk cur.reverse :: tokenizeAux rest []

/-- Source: `SchemaIndex._tokenize`. -/
def tokenize (text : String) : List String := tokenizeAux (lcLower text.data) []

/-- The scoring document of one table built by `_build_index`: the table
name three times, then description, column, example and mapped-keyword
tokens, joined by spaces. -/
def tableDocParts (g : SchemaGraph) (name : String) (info : TableInfo) : List String :=
  [name, name, name] ++ tokenize info.description ++ info.columns.flatMap tokenize ++
  info.examples.flatMap tokenize ++
  g.keyword_mappings.flatMap (fun pr => if name ∈ pr.2 then tokenize pr.1 else [])

/-- Source: `self.table_docs`. -/
def tableDocs (g : SchemaGraph) : List String :=
  g.tables.map (fun pr => String.intercalate " " (tableDocParts g pr.1 pr.2))

/-- Source: `self.table_names`. -/
def tableNames (g : SchemaGraph) : List String := g.tables.map Prod.fst

/-- The three externally computed score components of `search_tables`:
the BM25 lexical score over query/document tokens, the TF-IDF cosine
similarity of the query against document `i`, and the degree centrality
of a table. -/
structure ScoreOracle where
  bm25 : List String → List String → ℚ
  tfidf : String → Nat → ℚ
  centrality : String → ℚ

/-- The keyword boost dict: `+2.0` for each query token and configured
keyword with `keyword in token or token in keyword`, added for every
table the keyword maps to. -/
def keywordBoost (g : SchemaGraph) (queryTokens : List String) : List (String × ℚ) :=
  queryTokens.foldl (fun acc token =>
    g.keyword_mappings.foldl (fun acc pr =>
      if strContains token pr.1 || strContains pr.1 token then
        pr.2.foldl (fun acc table => alSet acc table (alGetD acc table 0 + 2)) acc
      else acc) acc) []

/-- The combined score of table `i`:
`bm25*1.0 + tfidf*0.8 + centrality*0.3 + boost`. -/
def scoreOf (g : SchemaGraph) (o : ScoreOracle) (query : String) (i : Nat) : ℚ :=
  o.bm25 (tokenize query) (tokenize ((tableDocs g).getD i "")) * 1 +
  o.tfidf query i * (4 / 5) +
  o.centrality ((tableNames g).getD i "") * (3 / 10) +
  alGetD (keywordBoost g (tokenize query)) ((tableNames g).getD i "") 0

/-- The `(table_name, combined_score)` pairs of the tables whose combined
score reaches `min_score`, in enumeration order. -/
def scoredTables (g : SchemaGraph) (o : ScoreOracle) (query : String)
    (min_score : ℚ) : List (String × ℚ) :=
  (List.finRange (tableNames g).length).filterMap (fun i =>
    if min_score ≤ scoreOf g o query i.val then
      some ((tableNames g).get i, scoreOf g o query i.val) else none)

/-- Stable descending insertion: place `x` after every strictly greater
score (Python `list.sort(key=..., reverse=True)` keeps ties in original
order). -/
def insertDesc (x : String × ℚ) : List (String × ℚ) → List (String × ℚ)
  | [] => [x]
  | y :: ys => if x.2 < y.2 then y :: insertDesc x ys else x :: y :: ys

/-- Stable descending sort by score. -/
def sortDesc : List (String × ℚ) → List (String × ℚ)
  | [] => []
  | x :: xs => insertDesc x (sortDesc xs)

/-- Source: `SchemaIndex.search_tables` (defaults `top_k=10`, `min_score=0.1`):
empty-token queries yield `[]`; otherwise score, filter, sort descending
with stable ties, truncate to `top_k`. -/
def searchTables (g : SchemaGraph) (o : ScoreOracle) (query : String)
    (top_k : Nat := 10) (min_score : ℚ := 1 / 10) : List (String × ℚ) :=
  if (tokenize query).isEmpty then []
  else (sortDesc (scoredTables g o query min_score)).take top_k

/-- The component-score oracle used by the ranking witness. -/
def witnessOracle : ScoreOracle where
  bm25 := fun _ _ => 1
  tfidf := fun _ i => (i : ℚ)
  centrality := fun _ => 0

/-! ## Theorems -/

theorem pathJoins_backed (g : SchemaGraph) (path : List String) :
    ∀ j ∈ pathJoins g path, BackedJoin g j := by
  induction path with
  | nil => intro j hj; simp [pathJoins] at hj
  | cons a rest ih =>
    cases rest with
    | nil => intro j hj; simp [pathJoins] at hj
    | cons b rest2 =>
      cases hfind : g.relationships.find? (fun r => r.from_ = a ∧ r.to_ = b) with
      | none =>
        intro j hj
        simp only [pathJoins, hfind, List.nil_append] at hj
        exact ih j hj
      | some rel =>
        intro j hj
        simp only [pathJoins, hfind, List.singleton_append, List.mem_cons] at hj
        rcases hj with h1 | h2
        · subst h1
          have hp := List.find?_some hfind
          simp only [decide_eq_true_eq] at hp
          exact ⟨rel, List.mem_of_find?_eq_some hfind, hp.1, hp.2, rfl, rfl⟩
        · exact ih j h2

theorem getJoinPathAux_backed (g : SchemaGraph) :
    ∀ (ts connected : List String) (joins js : List JoinStep),
      getJoinPathAux g ts connected joins = .ok js →
      (∀ j ∈ joins, BackedJoin g j) → ∀ j ∈ js, BackedJoin g j := by
  intro ts
  induction ts with
  | nil =>
    intro c joins js h hj
    simp only [getJoinPathAux, Except.ok.injEq] at h
    subst h; exact hj
  | cons t ts ih =>
    intro c joins js h hj
    simp only [getJoinPathAux] at h
    cases hb : bestPathFrom g t c none with
    | error e => rw [hb] at h; exact absurd h (by simp)
    | ok best =>
      rw [hb] at h
      cases best with
      | none => exact ih c joins js h hj
      | some path =>
        refine ih (c ++ [t]) (joins ++ pathJoins g path) js h ?_
        intro j hj2
        rcases List.mem_append.mp hj2 with h1 | h2
        · exact hj j h1
        · exact pathJoins_backed g path j h2

/-- C3: for every list of target tables, every join step emitted by
`get_join_path` corresponds to a declared `Relationship` of the schema
(same `from_table`, `to_table` and join column); the solver never emits a
join that is not backed by a declared relationship. -/
theorem get_join_path_only_declared_relationships (g : SchemaGraph)
    (tables : List String) (js : List JoinStep)
    (h : getJoinPath g tables = .ok js) : ∀ j ∈ js, BackedJoin g j := by
  unfold getJoinPath at h
  by_cases hlen : tables.length ≤ 1
  · rw [if_pos hlen] at h
    cases h
    intro j hj; simp at hj
  · rw [if_neg hlen] at h
    cases tables with
    | nil => simp at hlen
    | cons t0 rest => exact getJoinPathAux_backed g rest [t0] [] js h (by intro j hj; simp at hj)

/-- Witness for C3: on the default built-in schema, connecting
`shipments` and `orders` emits exactly the declared
`shipments.order_id -> orders.id` join, and that step is backed. -/
theorem get_join_path_only_declared_relationships_witness :
    getJoinPath defaultGraph ["shipments", "orders"] =
      .ok [⟨"shipments", "orders", "order_id", "id"⟩] ∧
    BackedJoin defaultGraph ⟨"shipments", "orders", "order_id", "id"⟩ :=
  ⟨rfl, get_join_path_only_declared_relationships defaultGraph ["shipments", "orders"]
      [⟨"shipments", "orders", "order_id", "id"⟩] rfl _ (by simp)⟩

/-- C1 (evaluated at the failing input): the first validation repairs
`SELECT COUNT(*) FROM shipments` to exactly the claimed SQL, but
re-validating that repaired SQL is *not* modification-free: the existence
check lower-cases the statement while interpolating the scoping value
`E100` case-sensitively, so the just-added filter is not recognized and a
second copy is spliced in after `WHERE`, yielding a different (and
malformed) statement. -/
theorem validate_sql_scoping_repair_not_idempotent :
    validateSql scopedShipmentsGraph {} "SELECT COUNT(*) FROM shipments" (some "E100") =
      .valid ["shipments"] ["shipments"]
        "SELECT COUNT(*) FROM shipments WHERE accounts_entity_id = 'E100';" true false ∧
    validateSql scopedShipmentsGraph {}
        "SELECT COUNT(*) FROM shipments WHERE accounts_entity_id = 'E100';" (some "E100") =
      .valid ["shipments"] ["shipments"]
        "SELECT COUNT(*) FROM shipments WHERE AND (accounts_entity_id = 'E100') accounts_entity_id = 'E100';"
        true false ∧
    ("SELECT COUNT(*) FROM shipments WHERE AND (accounts_entity_id = 'E100') accounts_entity_id = 'E100';" ≠
      "SELECT COUNT(*) FROM shipments WHERE accounts_entity_id = 'E100';") := by
  refine ⟨by decide, by decide, by decide⟩

/-- C2 (evaluated at the failing input): `validate_sql` only inspects
`str(sqlparse.parse(sql)[0])`, so for
`SELECT * FROM shipments; DROP TABLE shipments;` the safety checks never
see the `DROP` statement and the result is Valid — both with auto-scoping
enabled (scoped schema, first statement repaired) and with it disabled
(unscoped schema, the full two-statement input returned untouched as
`modified_sql`). -/
theorem validate_sql_multi_statement_not_rejected :
    validateSql scopedShipmentsGraph {} "SELECT * FROM shipments; DROP TABLE shipments;"
        (some "E100") =
      .valid ["shipments"] ["shipments"]
        "SELECT * FROM shipments;  WHERE accounts_entity_id = 'E100';" true false ∧
    validateSql unscopedShipmentsGraph { ENABLE_AUTO_SCOPING := false }
        "SELECT * FROM shipments; DROP TABLE shipments;" (some "E100") =
      .valid ["shipments"] [] "SELECT * FROM shipments; DROP TABLE shipments;" false false := by
  refine ⟨by decide, by decide⟩

/-- C6: a SELECT over a table literally named `updates` never triggers the
`UPDATE` dangerous-keyword rejection: keyword matching uses word
boundaries, so the `UPDATE` substring of the identifier `UPDATES` does not
match, the safety checks pass, and the full validation of
`SELECT * FROM updates` succeeds. -/
theorem updates_table_does_not_trigger_update_keyword :
    containsWord (lcUpper ("SELECT * FROM updates").data) ("UPDATE").data = false ∧
    performSafetyChecks ("SELECT * FROM updates").data = .pass ∧
    validateSql updatesGraph {} "SELECT * FROM updates" none =
      .valid ["updates"] [] "SELECT * FROM updates" false false := by
  refine ⟨by decide, by decide, by decide⟩

theorem mem_dedup {a : String} : ∀ {l : List String}, a ∈ dedup l ↔ a ∈ l := by
  intro l
  induction l with
  | nil => simp [dedup]
  | cons x xs ih =>
    simp only [dedup, List.mem_cons, List.mem_filter]
    constructor
    · rintro (h | ⟨h, _⟩)
      · exact Or.inl h
      · exact Or.inr (ih.mp h)
    · rintro (h | h)
      · exact Or.inl h
      · by_cases hx : a = x
        · exact Or.inl hx
        · exact Or.inr ⟨ih.mpr h, by simpa using hx⟩

theorem mem_alSet {α : Type} {m : List (String × α)} {k : String} {v : α}
    {p : String × α} (h : p ∈ alSet m k v) : p ∈ m ∨ p = (k, v) := by
  unfold alSet at h
  split at h
  · rcases List.mem_map.mp h with ⟨q, hq, hpq⟩
    by_cases hk : q.1 = k
    · right; rw [if_pos hk] at hpq; exact hpq.symm
    · left; rw [if_neg hk] at hpq; exact hpq ▸ hq
  · rcases List.mem_append.mp h with h1 | h1
    · exact Or.inl h1
    · exact Or.inr (by simpa using h1)

theorem columnsWellFormed_mem {g : SchemaGraph} {cols : List (String × List String)}
    {pr : String × List String} (h : columnsWellFormed g cols = true) (hm : pr ∈ cols) :
    tableColumnsOk g pr = true := by
  unfold columnsWellFormed at h
  rw [List.all_eq_true] at h
  exact h pr hm

theorem tableColumnsOk_of {g : SchemaGraph} {k : String} {info : TableInfo}
    {v : List String} (hinfo : alGet g.tables k = some info)
    (hv : ∀ c ∈ v, c ∈ info.columns) : tableColumnsOk g (k, v) = true := by
  unfold tableColumnsOk
  rw [hinfo]
  simp only [List.all_eq_true, decide_eq_true_eq]
  exact hv

theorem columnsWellFormed_alSet {g : SchemaGraph} {m : List (String × List String)}
    {k : String} {v : List String} (h : columnsWellFormed g m = true)
    (hk : tableColumnsOk g (k, v) = true) : columnsWellFormed g (alSet m k v) = true := by
  unfold columnsWellFormed at h ⊢
  rw [List.all_eq_true] at h ⊢
  intro pr hpr
  rcases mem_alSet hpr with h1 | h1
  · exact h pr h1
  · exact h1 ▸ hk

theorem alGetD_cols_ok {g : SchemaGraph} {m : List (String × List String)}
    {k : String} {info : TableInfo} (h : columnsWellFormed g m = true)
    (hinfo : alGet g.tables k = some info) : ∀ c ∈ alGetD m k [], c ∈ info.columns := by
  intro c hc
  unfold alGetD alGet at hc
  cases hf : m.find? (fun p => p.1 = k) with
  | none => rw [hf] at hc; exact absurd hc (by simp)
  | some pr =>
    rw [hf] at hc
    have hc2 : c ∈ pr.2 := by simpa using hc
    have hmem := List.mem_of_find?_eq_some hf
    have hkey : pr.1 = k := by simpa using List.find?_some hf
    have hok := columnsWellFormed_mem h hmem
    unfold tableColumnsOk at hok
    rw [hkey, hinfo, List.all_eq_true] at hok
    simpa using hok c hc2

theorem exists_info_of_mem_keys {g : SchemaGraph} {t : String}
    (h : t ∈ g.tables.map Prod.fst) : ∃ info, alGet g.tables t = some info := by
  rcases List.mem_map.mp h with ⟨pr, hpr, hfst⟩
  unfold alGet
  cases hf : g.tables.find? (fun p => p.1 = t) with
  | none =>
    exfalso
    have := List.find?_eq_none.mp hf pr hpr
    simp [hfst] at this
  | some pr2 => exact ⟨pr2.2, rfl⟩

theorem alGet_tables_eq_getD {g : SchemaGraph} {t : String} {info : TableInfo}
    (hinfo : alGet g.tables t = some info) : alGetD g.tables t {} = info := by
  unfold alGetD
  rw [hinfo]
  rfl

theorem validateColumnsAux_wf (g : SchemaGraph) (cd : List (String × List String)) :
    ∀ (tables : List String) (acc : List (String × List String)),
      columnsWellFormed g acc = true →
      columnsWellFormed g (validateColumnsAux g cd tables acc) = true := by
  intro tables
  induction tables with
  | nil => intro acc h; simpa [validateColumnsAux] using h
  | cons table rest ih =>
    intro acc h
    unfold validateColumnsAux
    cases hfind : alGet g.tables table with
    | none => exact ih acc h
    | some info =>
      refine ih _ (columnsWellFormed_alSet h (tableColumnsOk_of hfind ?_))
      intro c hc
      exact of_decide_eq_true (List.mem_filter.mp hc).2

theorem validateColumns_wf (g : SchemaGraph) (cd : List (String × List String))
    (tables : List String) : columnsWellFormed g (validateColumns g cd tables) = true :=
  validateColumnsAux_wf g cd tables [] rfl

theorem ensureKey_wf {g : SchemaGraph} {acc : List (String × List String)}
    {table : String} {info : TableInfo} (h : columnsWellFormed g acc = true)
    (hinfo : alGet g.tables table = some info) :
    columnsWellFormed g (ensureKey acc table) = true := by
  unfold ensureKey
  split
  · exact h
  · exact columnsWellFormed_alSet h (tableColumnsOk_of hinfo (by intro c hc; simp at hc))

theorem mem_addIfMissing {cur : List String} {x c : String}
    (h : c ∈ addIfMissing cur x) : c ∈ cur ∨ c = x := by
  unfold addIfMissing at h
  split at h
  · exact Or.inl h
  · rcases List.mem_append.mp h with h1 | h1
    · exact Or.inl h1
    · exact Or.inr (by simpa using h1)

theorem usersStep_wf {g : SchemaGraph} {acc : List (String × List String)}
    {table : String} {info : TableInfo} (h : columnsWellFormed g acc = true)
    (hinfo : alGet g.tables table = some info) :
    columnsWellFormed g (usersStep g acc table) = true := by
  unfold usersStep
  split
  · next hcond =>
    refine columnsWellFormed_alSet h (tableColumnsOk_of hinfo ?_)
    have hdecl : declaredColumns g table = info.columns := by
      unfold declaredColumns
      rw [alGet_tables_eq_getD hinfo]
    rw [hdecl] at hcond
    have hcur := alGetD_cols_ok h hinfo (k := table)
    intro c hc
    unfold usersNameCols at hc
    rcases mem_addIfMissing hc with h1 | h1
    · rcases mem_addIfMissing h1 with h2 | h2
      · exact hcur c h2
      · exact h2 ▸ hcond.2.1
    · exact h1 ▸ hcond.2.2
  · exact h

theorem displayFill_wf {g : SchemaGraph} {acc : List (String × List String)}
    {table : String} {info : TableInfo} (h : columnsWellFormed g acc = true)
    (hinfo : alGet g.tables table = some info) :
    columnsWellFormed g (displayFill g acc table) = true := by
  unfold displayFill
  split
  · refine columnsWellFormed_alSet h (tableColumnsOk_of hinfo ?_)
    intro c hc
    rcases List.mem_append.mp hc with h1 | h1
    · exact alGetD_cols_ok h hinfo c h1
    · have h2 := List.mem_of_mem_take h1
      unfold displayColsOf declaredColumns at h2
      rw [alGet_tables_eq_getD hinfo] at h2
      exact (List.mem_filter.mp h2).1
  · exact h

theorem timeFill_wf {g : SchemaGraph} {acc : List (String × List String)}
    {table : String} {info : TableInfo} (h : columnsWellFormed g acc = true)
    (hinfo : alGet g.tables table = some info) :
    columnsWellFormed g (timeFill g acc table) = true := by
  unfold timeFill
  split
  · split
    · exact h
    · next c rest heq =>
      refine columnsWellFormed_alSet h (tableColumnsOk_of hinfo ?_)
      intro c2 hc2
      rcases List.mem_append.mp hc2 with h1 | h1
      · exact alGetD_cols_ok h hinfo c2 h1
      · simp at h1
        subst h1
        have hc : c2 ∈ timeColsOf g table := by rw [heq]; exact List.mem_cons_self _ _
        unfold timeColsOf declaredColumns at hc
        rw [alGet_tables_eq_getD hinfo] at hc
        exact (List.mem_filter.mp hc).1
  · exact h

theorem ensureDisplayStep_wf {g : SchemaGraph} {acc : List (String × List String)}
    {table : String} {info : TableInfo} (h : columnsWellFormed g acc = true)
    (hinfo : alGet g.tables table = some info) :
    columnsWellFormed g (ensureDisplayStep g acc table) = true :=
  displayFill_wf (usersStep_wf (ensureKey_wf h hinfo) hinfo) hinfo

theorem ensureTimeStep_wf {g : SchemaGraph} {acc : List (String × List String)}
    {table : String} {info : TableInfo} (h : columnsWellFormed g acc = true)
    (hinfo : alGet g.tables table = some info) :
    columnsWellFormed g (ensureTimeStep g acc table) = true :=
  timeFill_wf (ensureKey_wf h hinfo) hinfo

theorem foldl_steps_wf (g : SchemaGraph)
    (step : List (String × List String) → String → List (String × List String))
    (hstep : ∀ acc table info, columnsWellFormed g acc = true →
      alGet g.tables table = some info → columnsWellFormed g (step acc table) = true) :
    ∀ (tables : List String) (acc : List (String × List String)),
      columnsWellFormed g acc = true →
      (∀ t ∈ tables, ∃ info, alGet g.tables t = some info) →
      columnsWellFormed g (tables.foldl step acc) = true := by
  intro tables
  induction tables with
  | nil => intro acc h _; simpa using h
  | cons table rest ih =>
    intro acc h htab
    rw [List.foldl_cons]
    rcases htab table (List.mem_cons_self _ _) with ⟨info, hinfo⟩
    exact ih (step acc table) (hstep acc table info h hinfo)
      (fun t ht => htab t (List.mem_cons_of_mem _ ht))

theorem ensureDisplayColumns_wf (g : SchemaGraph) (p : Plan)
    (h : columnsWellFormed g p.columns = true)
    (htab : ∀ t ∈ p.tables, ∃ info, alGet g.tables t = some info) :
    columnsWellFormed g (ensureDisplayColumns g p).columns = true :=
  foldl_steps_wf g (ensureDisplayStep g)
    (fun _ _ _ hwf hinfo => ensureDisplayStep_wf hwf hinfo) p.tables p.columns h htab

theorem ensureTimeColumns_wf (g : SchemaGraph) (p : Plan)
    (h : columnsWellFormed g p.columns = true)
    (htab : ∀ t ∈ p.tables, ∃ info, alGet g.tables t = some info) :
    columnsWellFormed g (ensureTimeColumns g p).columns = true :=
  foldl_steps_wf g (ensureTimeStep g)
    (fun _ _ _ hwf hinfo => ensureTimeStep_wf hwf hinfo) p.tables p.columns h htab

theorem ensureDisplayColumns_tables (g : SchemaGraph) (p : Plan) :
    (ensureDisplayColumns g p).tables = p.tables := rfl

theorem ensureTimeColumns_tables (g : SchemaGraph) (p : Plan) :
    (ensureTimeColumns g p).tables = p.tables := rfl

theorem intentBase_tables (g : SchemaGraph) (p : Plan) (q : String) :
    (intentBase g p q).tables = p.tables := by
  unfold intentBase
  split
  · rfl
  · split
    · exact ensureDisplayColumns_tables g p
    · rfl

theorem applyIntentRepairs_tables (g : SchemaGraph) (p : Plan) (q : String) :
    (applyIntentRepairs g p q).tables = p.tables := by
  unfold applyIntentRepairs
  split
  · split
    · exact intentBase_tables g p q
    · rw [ensureTimeColumns_tables]; exact intentBase_tables g p q
  · exact intentBase_tables g p q

theorem intentBase_wf (g : SchemaGraph) (p : Plan) (q : String)
    (hcols : columnsWellFormed g p.columns = true)
    (htab : ∀ t ∈ p.tables, ∃ info, alGet g.tables t = some info) :
    columnsWellFormed g (intentBase g p q).columns = true := by
  unfold intentBase
  split
  · rfl
  · split
    · exact ensureDisplayColumns_wf g p hcols htab
    · exact hcols

theorem applyIntentRepairs_wf (g : SchemaGraph) (p : Plan) (q : String)
    (hcols : columnsWellFormed g p.columns = true)
    (htab : ∀ t ∈ p.tables, ∃ info, alGet g.tables t = some info) :
    columnsWellFormed g (applyIntentRepairs g p q).columns = true := by
  have hbase := intentBase_wf g p q hcols htab
  have hbaseTab : ∀ t ∈ (intentBase g p q).tables, ∃ info, alGet g.tables t = some info := by
    rw [intentBase_tables]; exact htab
  unfold applyIntentRepairs
  split
  · split
    · exact hbase
    · exact ensureTimeColumns_wf g _ hbase hbaseTab
  · exact hbase

theorem applyIntentRepairs_count (g : SchemaGraph) (p : Plan) (q : String)
    (hq : isCountIntent q = true) :
    (applyIntentRepairs g p q).columns = [] ∧
    (applyIntentRepairs g p q).group_by = [] ∧
    (applyIntentRepairs g p q).limit = none := by
  have hbase : intentBase g p q = { p with columns := [], group_by := [], limit := none } := by
    unfold intentBase
    simp [hq]
  unfold applyIntentRepairs
  simp only [hq, eq_self_iff_true, if_true]
  split
  · rw [hbase]
    exact ⟨rfl, rfl, rfl⟩
  · rw [hbase]
    exact ⟨rfl, rfl, rfl⟩

theorem finishPlan_tables (g : SchemaGraph) (p2 : Plan) (q : String) :
    (finishPlan g p2 q).tables = p2.tables := by
  unfold finishPlan
  rw [applyIntentRepairs_tables]

theorem finishPlan_wf (g : SchemaGraph) (p2 : Plan) (q : String)
    (htab : ∀ t ∈ p2.tables, ∃ info, alGet g.tables t = some info) :
    columnsWellFormed g (finishPlan g p2 q).columns = true := by
  unfold finishPlan
  exact applyIntentRepairs_wf g _ q (validateColumns_wf g p2.columns p2.tables) htab

theorem finishPlan_count (g : SchemaGraph) (p2 : Plan) (q : String)
    (hq : isCountIntent q = true) :
    (finishPlan g p2 q).columns = [] ∧ (finishPlan g p2 q).group_by = [] ∧
    (finishPlan g p2 q).limit = none := by
  unfold finishPlan
  exact applyIntentRepairs_count g _ q hq

theorem repairedTables_keys {g : SchemaGraph} {plan1 : Plan} {t : String}
    (h : t ∈ repairedTables g plan1) : t ∈ g.tables.map Prod.fst := by
  unfold repairedTables at h
  exact of_decide_eq_true (List.mem_filter.mp h).2

theorem invalidTables_empty_keys {g : SchemaGraph} {plan1 : Plan}
    (h : invalidTablesOf g plan1 = []) :
    ∀ t ∈ plan1.tables, t ∈ g.tables.map Prod.fst := by
  intro t ht
  unfold invalidTablesOf at h
  by_contra hnot
  have hmem : t ∈ (dedup plan1.tables).filter
      (fun t => decide (t ∉ g.tables.map Prod.fst)) :=
    List.mem_filter.mpr ⟨mem_dedup.mpr ht, by simpa using hnot⟩
  rw [h] at hmem
  simp at hmem

theorem synthTables_superset {tables : List String} {acc : List PJoin} :
    ∀ t ∈ tables, t ∈ synthTables tables acc := by
  intro t ht
  unfold synthTables
  split
  · exact ht
  · exact mem_dedup.mpr (List.mem_append_left _ ht)

theorem synthesizeJoinBridges_tables_superset (g : SchemaGraph) (p : Plan) :
    ∀ t ∈ p.tables, t ∈ (synthesizeJoinBridges g p).tables := by
  intro t ht
  unfold synthesizeJoinBridges
  split
  · exact ht
  · split
    · exact ht
    · split
      · exact ht
      · exact synthTables_superset t ht

/-- C5: a parseable plan object missing at least one of the 8 required
fields is rejected, and the error enumerates exactly the names of the
missing fields (the `missingFields` list is precisely the required fields
that are absent, in declaration order, and the error message is built
from it). -/
theorem validate_plan_missing_fields_exact (g : SchemaGraph) (p : PlanObj) (q : String)
    (h : missingFields p ≠ []) :
    validatePlan g p q = .invalid (missingMsg (missingFields p)) ∧
    ∀ f, f ∈ missingFields p ↔ f ∈ requiredFields ∧ fieldPresent p f = false := by
  constructor
  · unfold validatePlan
    rw [if_pos]
    simpa [List.isEmpty_iff] using h
  · intro f
    unfold missingFields
    rw [List.mem_filter]
    simp

/-- Witness for C5: the empty plan object misses all 8 fields and is
rejected with exactly those names. -/
theorem validate_plan_missing_fields_exact_witness :
    missingFields emptyPlanObj ≠ [] ∧
    validatePlan defaultGraph emptyPlanObj "x" =
      .invalid (missingMsg (missingFields emptyPlanObj)) ∧
    missingMsg (missingFields emptyPlanObj) =
      "Missing required fields: ['tables', 'columns', 'joins', 'filters', 'group_by', 'order_by', 'limit', 'needs_scoping']" ∧
    ∀ f, f ∈ missingFields emptyPlanObj ↔
      f ∈ requiredFields ∧ fieldPresent emptyPlanObj f = false := by
  have h := validate_plan_missing_fields_exact defaultGraph emptyPlanObj "x" (by decide)
  exact ⟨by decide, h.1, by decide, h.2⟩

/-- C7: the query `how many shipments are delivered` is classified as
count intent, and every plan returned Valid under a count-intent query has
an empty columns map, an empty `group_by` and a null `limit`, regardless
of the input plan's contents. -/
theorem validate_plan_count_intent_clears_projection :
    isCountIntent "how many shipments are delivered" = true ∧
    ∀ (g : SchemaGraph) (p : PlanObj) (q : String) (plan' : Plan),
      isCountIntent q = true → validatePlan g p q = .valid plan' →
      plan'.columns = [] ∧ plan'.group_by = [] ∧ plan'.limit = none := by
  refine ⟨by decide, ?_⟩
  intro g p q plan' hq h
  unfold validatePlan at h
  split at h
  · cases h
  · split at h
    · split at h
      · cases h
      · injection h with h
        subst h
        exact finishPlan_count g _ q hq
    · injection h with h
      subst h
      exact finishPlan_count g _ q hq

/-- Witness for C7: the concrete count query on a populated plan. -/
theorem validate_plan_count_intent_clears_projection_witness :
    validatePlan defaultGraph c7Plan "how many shipments are delivered" =
      .valid c7Expected ∧
    c7Expected.columns = [] ∧ c7Expected.group_by = [] ∧ c7Expected.limit = none :=
  ⟨by decide,
   validate_plan_count_intent_clears_projection.2 defaultGraph c7Plan
     "how many shipments are delivered" c7Expected (by decide) (by decide)⟩

/-- C4 (amended): when the plan's tables contain an unknown table, the
repaired table set is the *post-synthesis* table set (the declared tables
plus any tables implied by the plan's joins and synthesized bridges)
intersected with the schema tables; only when that intersection is empty
is the result Invalid. -/
theorem validate_plan_unknown_tables_intersect_post_synthesis
    (g : SchemaGraph) (p : PlanObj) (q : String)
    (h8 : missingFields p = [])
    (hunk : ∃ t ∈ (toPlan p).tables, t ∉ g.tables.map Prod.fst) :
    (repairedTables g (synthesizeJoinBridges g (toPlan p)) = [] →
      validatePlan g p q = .invalid ("No valid tables found. Invalid tables: " ++
        pyStrList (invalidTablesOf g (synthesizeJoinBridges g (toPlan p))))) ∧
    (repairedTables g (synthesizeJoinBridges g (toPlan p)) ≠ [] →
      ∃ plan', validatePlan g p q = .valid plan' ∧
        plan'.tables = repairedTables g (synthesizeJoinBridges g (toPlan p))) := by
  obtain ⟨t, ht, htk⟩ := hunk
  have htS := synthesizeJoinBridges_tables_superset g (toPlan p) t ht
  have hinv : t ∈ invalidTablesOf g (synthesizeJoinBridges g (toPlan p)) := by
    unfold invalidTablesOf
    exact List.mem_filter.mpr ⟨mem_dedup.mpr htS, by simpa using htk⟩
  have hinvne : ¬(invalidTablesOf g (synthesizeJoinBridges g (toPlan p))).isEmpty = true := by
    intro hcon
    rw [List.isEmpty_iff] at hcon
    rw [hcon] at hinv
    simp at hinv
  have hA : ¬¬((missingFields p).isEmpty = true) := by simp [h8]
  constructor
  · intro hrep
    unfold validatePlan
    rw [if_neg hA, if_pos hinvne, if_pos (by rw [hrep]; rfl)]
  · intro hrepne
    refine ⟨finishPlan g
      { synthesizeJoinBridges g (toPlan p) with
        tables := repairedTables g (synthesizeJoinBridges g (toPlan p)) } q, ?_, ?_⟩
    · unfold validatePlan
      rw [if_neg hA, if_pos hinvne, if_neg (by simpa [List.isEmpty_iff] using hrepne)]
    · exact finishPlan_tables g _ q

/-- Witness for C4 (amended): the concrete plan with unknown declared
tables but join-implied schema tables. -/
theorem validate_plan_unknown_tables_intersect_post_synthesis_witness :
    missingFields c4Plan = [] ∧
    repairedTables defaultGraph (synthesizeJoinBridges defaultGraph (toPlan c4Plan)) ≠ [] ∧
    ∃ plan', validatePlan defaultGraph c4Plan "x" = .valid plan' ∧
      plan'.tables =
        repairedTables defaultGraph (synthesizeJoinBridges defaultGraph (toPlan c4Plan)) := by
  refine ⟨by decide, by decide, ?_⟩
  exact (validate_plan_unknown_tables_intersect_post_synthesis defaultGraph c4Plan "x"
    (by decide) ⟨"bogus", by decide, by decide⟩).2 (by decide)

/-- Counterexample for C4 as stated: every declared table of `c4Plan` is
unknown to the schema — so the claim demands `Invalid` (the original table
set intersected with the schema is empty) — yet `validate_plan` returns
Valid with tables `[shipments, orders]`, which were pulled in from the
plan's joins during bridge synthesis, not from the original table set. -/
theorem validate_plan_unknown_tables_counterexample :
    (∀ t ∈ (toPlan c4Plan).tables, t ∉ defaultGraph.tables.map Prod.fst) ∧
    ∃ plan', validatePlan defaultGraph c4Plan "x" = .valid plan' ∧
      plan'.tables = ["shipments", "orders"] := by
  exact ⟨by decide, ⟨_, rfl, by decide⟩⟩

/-- C10: every plan returned Valid satisfies the column invariant — every
table key of its columns map is a schema table and every column listed
under it exists in that table's declared column list; the invariant
survives the intent-repair steps that add display or time columns after
the column-pruning step. -/
theorem validate_plan_valid_columns_wellformed (g : SchemaGraph) (p : PlanObj)
    (q : String) (plan' : Plan) (h : validatePlan g p q = .valid plan') :
    columnsWellFormed g plan'.columns = true := by
  unfold validatePlan at h
  split at h
  · cases h
  · split at h
    · split at h
      · cases h
      · injection h with h
        subst h
        refine finishPlan_wf g _ q ?_
        intro t ht
        exact exists_info_of_mem_keys (repairedTables_keys ht)
    · rename_i hinv
      injection h with h
      subst h
      refine finishPlan_wf g _ q ?_
      intro t ht
      have hnil : invalidTablesOf g (synthesizeJoinBridges g (toPlan p)) = [] := by
        rw [← List.isEmpty_iff]
        exact Bool.eq_true_of_not_eq_false (by simpa using not_not.mp hinv)
      exact exists_info_of_mem_keys (invalidTables_empty_keys hnil t ht)

/-- Witness for C10: a list/time query over a plan with one unknown column;
the repaired columns map is well-formed. -/
theorem validate_plan_valid_columns_wellformed_witness :
    validatePlan defaultGraph c10Plan "list customers this week" = .valid c10Expected ∧
    columnsWellFormed defaultGraph c10Expected.columns = true :=
  ⟨by decide,
   validate_plan_valid_columns_wellformed defaultGraph c10Plan
     "list customers this week" c10Expected (by decide)⟩

theorem generationLoopAux_attempts_le (oracle : Nat → AttemptOutcome)
    (refineT : Nat → List String → List String) (attempt : Nat)
    (tables : List String) (h : attempt ≤ MAX_VALIDATION_ATTEMPTS) :
    (generationLoopAux oracle refineT attempt tables).attempts ≤
      MAX_VALIDATION_ATTEMPTS := by
  unfold generationLoopAux
  split
  · rename_i hlt
    split
    · simpa using hlt
    · split
      · exact generationLoopAux_attempts_le oracle refineT (attempt + 1) _ (by omega)
      · simpa using hlt
    · split
      · exact generationLoopAux_attempts_le oracle refineT (attempt + 1) _ (by omega)
      · simpa using hlt
    · split
      · simpa using hlt
      · exact generationLoopAux_attempts_le oracle refineT (attempt + 1) tables (by omega)
  · simpa using h
termination_by MAX_VALIDATION_ATTEMPTS - attempt
decreasing_by all_goals omega

theorem isInvalidSql_exists {o : AttemptOutcome} (h : o.isInvalidSql = true) :
    ∃ s e, o = .invalidSql s e := by
  cases o with
  | invalidSql s e => exact ⟨s, e, rfl⟩
  | exn m => simp [AttemptOutcome.isInvalidSql] at h
  | countMismatch s => simp [AttemptOutcome.isInvalidSql] at h
  | validSql a b c => simp [AttemptOutcome.isInvalidSql] at h

/-- C9: the orchestration loop performs at most the configured maximum
number of attempts (3) for every oracle, and on a pathological input on
which every attempt fails validation it terminates after exactly 3
attempts with a failure result that retains the last attempted SQL and
the last validation error. -/
theorem generation_loop_bounded_and_retains_last :
    (∀ (oracle : Nat → AttemptOutcome) (refineT : Nat → List String → List String)
        (tables0 : List String),
      (generateWithValidationLoop oracle refineT tables0).attempts ≤
        MAX_VALIDATION_ATTEMPTS) ∧
    (∀ (oracle : Nat → AttemptOutcome) (refineT : Nat → List String → List String)
        (tables0 : List String) (s e : String),
      (∀ n, (oracle n).isInvalidSql = true) → oracle 2 = .invalidSql s e →
      generateWithValidationLoop oracle refineT tables0 =
        { success := false, sql := s, tables_used := refineT 1 (refineT 0 tables0),
          attempts := 3, error := some (exhaustedMsg e) }) := by
  constructor
  · intro oracle refineT tables0
    exact generationLoopAux_attempts_le oracle refineT 0 tables0 (by omega)
  · intro oracle refineT tables0 s e hall h2
    obtain ⟨s0, e0, h0⟩ := isInvalidSql_exists (hall 0)
    obtain ⟨s1, e1, h1⟩ := isInvalidSql_exists (hall 1)
    unfold generateWithValidationLoop
    unfold generationLoopAux
    simp only [h0, MAX_VALIDATION_ATTEMPTS]
    norm_num
    unfold generationLoopAux
    simp only [h1, MAX_VALIDATION_ATTEMPTS]
    norm_num
    unfold generationLoopAux
    simp only [h2, MAX_VALIDATION_ATTEMPTS]
    norm_num

/-- Witness for C9: the constant always-fail oracle exhausts exactly 3
attempts and keeps the last SQL and error. -/
theorem generation_loop_bounded_and_retains_last_witness :
    (∀ n, ((fun _ : Nat => AttemptOutcome.invalidSql "SELECT 1" "bad oracle") n).isInvalidSql
      = true) ∧
    generateWithValidationLoop (fun _ : Nat => .invalidSql "SELECT 1" "bad oracle")
        (fun (_ : Nat) (t : List String) => t) ["shipments"] =
      { success := false, sql := "SELECT 1", tables_used := ["shipments"],
        attempts := 3, error := some (exhaustedMsg "bad oracle") } ∧
    (generateWithValidationLoop (fun _ : Nat => .invalidSql "SELECT 1" "bad oracle")
        (fun (_ : Nat) (t : List String) => t) ["shipments"]).attempts ≤ MAX_VALIDATION_ATTEMPTS := by
  refine ⟨fun n => rfl, ?_, ?_⟩
  · exact generation_loop_bounded_and_retains_last.2
      (fun _ : Nat => .invalidSql "SELECT 1" "bad oracle") (fun (_ : Nat) (t : List String) => t) ["shipments"]
      "SELECT 1" "bad oracle" (fun n => rfl) rfl
  · exact generation_loop_bounded_and_retains_last.1
      (fun _ : Nat => .invalidSql "SELECT 1" "bad oracle") (fun (_ : Nat) (t : List String) => t) ["shipments"]

theorem mem_insertDesc {x y : String × ℚ} :
    ∀ {l : List (String × ℚ)}, y ∈ insertDesc x l → y = x ∨ y ∈ l
  | [], h => by simpa [insertDesc] using h
  | z :: zs, h => by
    unfold insertDesc at h
    by_cases hc : x.2 < z.2
    · rw [if_pos hc] at h
      rcases List.mem_cons.mp h with h1 | h1
      · exact Or.inr (by simp [h1])
      · rcases mem_insertDesc h1 with h2 | h2
        · exact Or.inl h2
        · exact Or.inr (List.mem_cons_of_mem _ h2)
    · rw [if_neg hc] at h
      rcases List.mem_cons.mp h with h1 | h1
      · exact Or.inl h1
      · exact Or.inr h1

theorem mem_sortDesc {y : String × ℚ} :
    ∀ {l : List (String × ℚ)}, y ∈ sortDesc l → y ∈ l
  | [], h => by simp [sortDesc] at h
  | x :: xs, h => by
    unfold sortDesc at h
    rcases mem_insertDesc h with h1 | h1
    · simp [h1]
    · exact List.mem_cons_of_mem _ (mem_sortDesc h1)

theorem insertDesc_sorted_stable (P : (String × ℚ) → (String × ℚ) → Prop)
    (x : String × ℚ) (l : List (String × ℚ))
    (hsort : l.Pairwise (fun a b => b.2 ≤ a.2))
    (hstab : l.Pairwise (fun a b => a.2 = b.2 → P a b))
    (hx : ∀ y ∈ l, x.2 = y.2 → P x y) :
    (insertDesc x l).Pairwise (fun a b => b.2 ≤ a.2) ∧
    (insertDesc x l).Pairwise (fun a b => a.2 = b.2 → P a b) := by
  induction l with
  | nil => exact ⟨List.pairwise_singleton _ _, List.pairwise_singleton _ _⟩
  | cons y ys ih =>
    rw [List.pairwise_cons] at hsort hstab
    unfold insertDesc
    split
    · rename_i hlt
      have hrec := ih hsort.2 hstab.2 (fun z hz => hx z (List.mem_cons_of_mem _ hz))
      constructor
      · rw [List.pairwise_cons]
        refine ⟨?_, hrec.1⟩
        intro z hz
        rcases mem_insertDesc hz with h1 | h1
        · subst h1; exact le_of_lt hlt
        · exact hsort.1 z h1
      · rw [List.pairwise_cons]
        refine ⟨?_, hrec.2⟩
        intro z hz
        rcases mem_insertDesc hz with h1 | h1
        · subst h1
          intro heq
          exact absurd heq (ne_of_gt hlt)
        · exact hstab.1 z h1
    · rename_i hge
      have hyx : y.2 ≤ x.2 := le_of_not_lt hge
      constructor
      · rw [List.pairwise_cons]
        refine ⟨?_, List.pairwise_cons.mpr hsort⟩
        intro z hz
        rcases List.mem_cons.mp hz with h1 | h1
        · subst h1; exact hyx
        · exact le_trans (hsort.1 z h1) hyx
      · rw [List.pairwise_cons]
        refine ⟨?_, List.pairwise_cons.mpr hstab⟩
        intro z hz
        exact hx z hz

theorem sortDesc_sorted_stable (P : (String × ℚ) → (String × ℚ) → Prop)
    (l : List (String × ℚ))
    (hstab : l.Pairwise (fun a b => a.2 = b.2 → P a b)) :
    (sortDesc l).Pairwise (fun a b => b.2 ≤ a.2) ∧
    (sortDesc l).Pairwise (fun a b => a.2 = b.2 → P a b) := by
  induction l with
  | nil => exact ⟨List.Pairwise.nil, List.Pairwise.nil⟩
  | cons x xs ih =>
    rw [List.pairwise_cons] at hstab
    have hrec := ih hstab.2
    unfold sortDesc
    exact insertDesc_sorted_stable P x (sortDesc xs) hrec.1 hrec.2
      (fun y hy => hstab.1 y (mem_sortDesc hy))

theorem insertDesc_length (x : String × ℚ) :
    ∀ (l : List (String × ℚ)), (insertDesc x l).length = l.length + 1
  | [] => rfl
  | y :: ys => by
    unfold insertDesc
    split
    · simp [insertDesc_length x ys]
    · simp

theorem sortDesc_length : ∀ (l : List (String × ℚ)), (sortDesc l).length = l.length
  | [] => rfl
  | x :: xs => by
    unfold sortDesc
    rw [insertDesc_length, sortDesc_length xs]
    simp

theorem scoredTables_mem {g : SchemaGraph} {o : ScoreOracle} {query : String}
    {m : ℚ} {pr : String × ℚ} (h : pr ∈ scoredTables g o query m) :
    ∃ i : Fin (tableNames g).length, (tableNames g).get i = pr.1 ∧
      pr.2 = scoreOf g o query i.val ∧ m ≤ pr.2 := by
  unfold scoredTables at h
  rcases List.mem_filterMap.mp h with ⟨i, _, hf⟩
  by_cases hc : m ≤ scoreOf g o query i.val
  · rw [if_pos hc] at hf
    injection hf with hf
    subst hf
    exact ⟨i, rfl, rfl, hc⟩
  · rw [if_neg hc] at hf
    simp at hf

theorem scoredTables_pairwise_stab (g : SchemaGraph) (o : ScoreOracle)
    (query : String) (m : ℚ) (hnd : (tableNames g).Nodup) :
    (scoredTables g o query m).Pairwise (fun a b => a.2 = b.2 →
      (tableNames g).indexOf a.1 < (tableNames g).indexOf b.1) := by
  unfold scoredTables
  rw [List.pairwise_filterMap]
  refine (List.pairwise_lt_finRange (tableNames g).length).imp ?_
  intro i j hij
  intro b hb b2 hb2
  by_cases hci : m ≤ scoreOf g o query i.val
  · by_cases hcj : m ≤ scoreOf g o query j.val
    · rw [if_pos hci] at hb
      rw [if_pos hcj] at hb2
      rw [Option.mem_some_iff] at hb hb2
      subst hb
      subst hb2
      intro _
      rw [List.get_indexOf hnd i, List.get_indexOf hnd j]
      exact hij
    · rw [if_neg hcj] at hb2
      cases hb2
  · rw [if_neg hci] at hb
    cases hb

/-- C8: for every query with at least one token and every schema with
distinct table names, `search_tables` (with the component scores given by
an oracle) returns exactly tables scored
`bm25*1.0 + tfidf*0.8 + centrality*0.3 + keyword boost`: every returned
entry carries the combined score of its table and meets the minimum
score, every table scoring below the minimum is absent, the result is
sorted by descending combined score with ties in original enumeration
order, and it is the `top_k`-truncation of the filtered ranking. -/
theorem search_tables_hybrid_ranking (g : SchemaGraph) (o : ScoreOracle)
    (query : String) (top_k : Nat) (min_score : ℚ)
    (hq : (tokenize query).isEmpty = false)
    (hnd : (tableNames g).Nodup) :
    (∀ pr ∈ searchTables g o query top_k min_score,
       min_score ≤ pr.2 ∧ ∃ i : Fin (tableNames g).length,
         (tableNames g).get i = pr.1 ∧ pr.2 = scoreOf g o query i.val) ∧
    (∀ i : Fin (tableNames g).length, scoreOf g o query i.val < min_score →
       (tableNames g).get i ∉ (searchTables g o query top_k min_score).map Prod.fst) ∧
    (searchTables g o query top_k min_score).Pairwise (fun a b => b.2 ≤ a.2) ∧
    (searchTables g o query top_k min_score).length =
      min top_k (scoredTables g o query min_score).length ∧
    (searchTables g o query top_k min_score).Pairwise (fun a b => a.2 = b.2 →
      (tableNames g).indexOf a.1 < (tableNames g).indexOf b.1) := by
  have hres : searchTables g o query top_k min_score =
      (sortDesc (scoredTables g o query min_score)).take top_k := by
    unfold searchTables
    rw [if_neg (by simp [hq])]
  have hsorted := sortDesc_sorted_stable
    (fun a b => (tableNames g).indexOf a.1 < (tableNames g).indexOf b.1)
    (scoredTables g o query min_score)
    (scoredTables_pairwise_stab g o query min_score hnd)
  have hmem : ∀ pr ∈ searchTables g o query top_k min_score,
      pr ∈ scoredTables g o query min_score := by
    intro pr hpr
    rw [hres] at hpr
    exact mem_sortDesc ((List.take_sublist _ _).subset hpr)
  refine ⟨?_, ?_, ?_, ?_, ?_⟩
  · intro pr hpr
    obtain ⟨i, hi1, hi2, hi3⟩ := scoredTables_mem (hmem pr hpr)
    exact ⟨hi3, i, hi1, hi2⟩
  · intro i hlow hmemmap
    rcases List.mem_map.mp hmemmap with ⟨pr, hpr, hfst⟩
    obtain ⟨j, hj1, hj2, hj3⟩ := scoredTables_mem (hmem pr hpr)
    have hij : j = i := (hnd.get_inj_iff).mp (by rw [hj1, hfst])
    rw [hij] at hj2
    rw [← hj2] at hlow
    exact absurd hj3 (not_le.mpr hlow)
  · rw [hres]
    exact hsorted.1.sublist (List.take_sublist _ _)
  · rw [hres, List.length_take, sortDesc_length]
  · rw [hres]
    exact hsorted.2.sublist (List.take_sublist _ _)

/-- Witness for C8: the concrete query `shipments` over the default
schema (one token, three distinct tables); the ranking facts follow by
instantiating the theorem. -/
theorem search_tables_hybrid_ranking_witness :
    (tokenize "shipments").isEmpty = false ∧
    tokenize "shipments" = ["shipments"] ∧
    tableNames defaultGraph = ["shipments", "orders", "customers"] ∧
    (tableNames defaultGraph).Nodup ∧
    (∀ pr ∈ searchTables defaultGraph witnessOracle "shipments" 2 (1 / 10),
       (1 : ℚ) / 10 ≤ pr.2 ∧ ∃ i : Fin (tableNames defaultGraph).length,
         (tableNames defaultGraph).get i = pr.1 ∧
         pr.2 = scoreOf defaultGraph witnessOracle "shipments" i.val) ∧
    (searchTables defaultGraph witnessOracle "shipments" 2 (1 / 10)).Pairwise
      (fun a b => b.2 ≤ a.2) ∧
    (searchTables defaultGraph witnessOracle "shipments" 2 (1 / 10)).length =
      min 2 (scoredTables defaultGraph witnessOracle "shipments" (1 / 10)).length ∧
    (searchTables defaultGraph witnessOracle "shipments" 2 (1 / 10)).Pairwise
      (fun a b => a.2 = b.2 →
        (tableNames defaultGraph).indexOf a.1 < (tableNames defaultGraph).indexOf b.1) := by
  refine ⟨by decide, by decide, by decide, by decide, ?_, ?_, ?_, ?_⟩
  · exact (search_tables_hybrid_ranking defaultGraph witnessOracle "shipments" 2 (1 / 10)
      (by decide) (by decide)).1
  · exact (search_tables_hybrid_ranking defaultGraph witnessOracle "shipments" 2 (1 / 10)
      (by decide) (by decide)).2.2.1
  · exact (search_tables_hybrid_ranking defaultGraph witnessOracle "shipments" 2 (1 / 10)
      (by decide) (by decide)).2.2.2.1
  · exact (search_tables_hybrid_ranking defaultGraph witnessOracle "shipments" 2 (1 / 10)
      (by decide) (by decide)).2.2.2.2

end NL2SQL
